import Mathlib

/-!
# Firmware image partition inspector

A shallow embedding of `print_image_content` from
`samples/matter/template/src/main.cpp` together with theorems about the
sampling of the payload, the chunked read loop, the release of the flash
area and the hex/ASCII rendering of a dump row.

The function talks to four external collaborators (`flash_area_open`,
`boot_image_load_header`, `flash_area_read`, `flash_area_close`) and writes to
the console with `printk`.  The embedding returns the ordered list of
everything the function does: every collaborator call and every console line.
-/

namespace ImageInspector

/-! ## Machine arithmetic -/

/-- Addition of two `uint32_t` values. -/
def u32_add (a b : Nat) : Nat := (a + b) % 4294967296

/-- Subtraction of two `uint32_t` values. -/
def u32_sub (a b : Nat) : Nat := (a % 4294967296 + 4294967296 - b % 4294967296) % 4294967296

/-! ## Data model -/

/-- Modelled from the spec: `struct image_version` is declared in
`bootutil/image.h`, which is not among the sources; the four version parts
are only printed. -/
structure image_version where
  iv_major : Nat
  iv_minor : Nat
  iv_revision : Nat
  iv_build_num : Nat
deriving DecidableEq, Repr

/-- Modelled from the spec: `struct image_header` is declared in
`bootutil/image.h`, which is not among the sources; the fields read by
`print_image_content` are the magic, the header size, the payload size and
the version. -/
structure image_header where
  ih_magic : Nat
  ih_hdr_size : Nat
  ih_img_size : Nat
  ih_ver : image_version
deriving DecidableEq, Repr

/-- The fields of a header fit the machine words they are stored in: a
32-bit magic, a 16-bit header size and a 32-bit payload size. -/
def image_header.fits (hdr : image_header) : Prop :=
  hdr.ih_magic < 4294967296 ∧ hdr.ih_hdr_size < 65536 ∧ hdr.ih_img_size < 4294967296

instance (hdr : image_header) : Decidable hdr.fits := by
  unfold image_header.fits
  exact inferInstance

/-- The external collaborators of `print_image_content`.  Every function
returns the status code first.  `flash_area_open` also returns the handle
stored through `&fa`, `boot_image_load_header` the header stored through
`&hdr`, and `flash_area_read` the bytes it stores into the destination
buffer.  `IMAGE_MAGIC` is the constant of `bootutil/image.h`.  No read
request is issued twice during one inspection (`reads_requested_once`), so a
result per request covers every combination of per-chunk results. -/
structure Backend where
  IMAGE_MAGIC : Nat
  flash_area_open : Nat → Int × Nat
  boot_image_load_header : Nat → Int × image_header
  flash_area_read : Nat → Nat → Nat → Int × List Nat

/-- One observable step of an inspection: a call to a collaborator or a
piece of console output. -/
inductive Event where
  | flash_area_open (img_id : Nat)
  | boot_image_load_header (fa : Nat)
  | flash_area_read (fa off len : Nat)
  | flash_area_close (fa : Nat)
  | title (name : List Char)
  | slot (img_address slot_size : Nat)
  | open_failed
  | no_image
  | invalid_magic (magic : Nat)
  | version (major minor revision build_num : Nat)
  | image_size (img_size : Nat)
  | content_heading
  | skipped_middle
  | read_failed (off : Nat)
  | row (label : Nat) (buffer : List Nat) (chunk_size : Nat)
deriving DecidableEq, Repr

/-! ## Console formatting -/

/-- The conversion `%u`. -/
def fmt_u (v : Nat) : List Char := Nat.toDigits 10 v

/-- The conversion `%0<width>x`: lower-case hexadecimal, padded with zeros
on the left up to `width` characters, never truncated. -/
def fmt_x (width v : Nat) : List Char :=
  List.replicate (width - (Nat.toDigits 16 v).length) '0' ++ Nat.toDigits 16 v

/-- The first inner loop of a row: `printk("%02x ", buffer[i])` for
`i < chunk_size`. -/
def hex_bytes (buffer : List Nat) (chunk_size : Nat) : List Char :=
  (List.range chunk_size).flatMap (fun i => fmt_x 2 (buffer.getD i 0) ++ [' '])

/-- The second inner loop of a row: `printk("   ")` for
`chunk_size ≤ i < 16`. -/
def hex_padding (chunk_size : Nat) : List Char :=
  (List.range' chunk_size (16 - chunk_size)).flatMap (fun _ => [' ', ' ', ' '])

/-- The character printed for one byte in the ASCII column.  The byte is
held in a `char`; whether `char` is signed or not, a byte above 126 fails the
test `c >= 32 && c <= 126`. -/
def ascii_char (c : Nat) : Char :=
  if 32 ≤ c ∧ c ≤ 126 then Char.ofNat c else '.'

/-- The third inner loop of a row: one character per byte for
`i < chunk_size`. -/
def ascii_bytes (buffer : List Nat) (chunk_size : Nat) : List Char :=
  (List.range chunk_size).map (fun i => ascii_char (buffer.getD i 0))

/-- What a row prints before its ASCII column. -/
def row_lead (label : Nat) (buffer : List Nat) (chunk_size : Nat) : List Char :=
  fmt_x 6 label ++ [':', ' '] ++ hex_bytes buffer chunk_size ++ hex_padding chunk_size
    ++ [' ', '|']

/-- The full text of a dump row. -/
def row_text (label : Nat) (buffer : List Nat) (chunk_size : Nat) : List Char :=
  row_lead label buffer chunk_size ++ ascii_bytes buffer chunk_size ++ ['|', '\n']

/-- The console text of an event; collaborator calls print nothing. -/
def Event.text : Event → List Char
  | .title name => "\n=== ".toList ++ name ++ " ===\n".toList
  | .slot img_address slot_size =>
      "Slot: 0x".toList ++ fmt_x 8 img_address ++ " (".toList ++ fmt_u slot_size
        ++ " bytes)\n".toList
  | .open_failed => "Failed to open flash area\n".toList
  | .no_image => "No valid MCUboot image found\n".toList
  | .invalid_magic magic => "Invalid image magic: 0x".toList ++ fmt_x 8 magic ++ ['\n']
  | .version major minor revision build_num =>
      "Version: ".toList ++ fmt_u major ++ ['.'] ++ fmt_u minor ++ ['.'] ++ fmt_u revision
        ++ ['+'] ++ fmt_u build_num ++ ['\n']
  | .image_size img_size => "Image size: ".toList ++ fmt_u img_size ++ " bytes\n".toList
  | .content_heading => "\nContent (first 512B and last 512B):\n".toList
  | .skipped_middle => "\n... (skipped middle part) ...\n\n".toList
  | .read_failed off => "Failed to read flash at 0x".toList ++ fmt_x 8 off ++ ['\n']
  | .row label buffer chunk_size => row_text label buffer chunk_size
  | _ => []

/-! ## The inspector -/

/-- The 16-byte `buffer` after `memset(buffer, 0, sizeof(buffer))` and a read
that stored the first `len` bytes of `data`. -/
def fill_buffer (data : List Nat) (len : Nat) : List Nat :=
  (List.range 16).map (fun i => if i < len then data.getD i 0 % 256 else 0)

/-- The `while (bytes_read < bytes_to_show)` loop of one section.
`bytes_read + chunk_size` never exceeds `bytes_to_show`, so the update of
`bytes_read` cannot wrap. -/
def dump_chunks (b : Backend) (fa : Nat) (hdr : image_header)
    (start_offset bytes_to_show bytes_read : Nat) : List Event :=
  if bytes_read < bytes_to_show then
    let chunk_size :=
      if bytes_to_show - bytes_read < 16 then bytes_to_show - bytes_read else 16
    let off := u32_add start_offset bytes_read
    Event.flash_area_read fa off chunk_size ::
      (if (b.flash_area_read fa off chunk_size).1 ≠ 0 then
        [Event.read_failed off]
      else
        Event.row (u32_add (u32_sub start_offset hdr.ih_hdr_size) bytes_read)
            (fill_buffer (b.flash_area_read fa off chunk_size).2 chunk_size) chunk_size ::
          dump_chunks b fa hdr start_offset bytes_to_show (bytes_read + chunk_size))
  else []
termination_by bytes_to_show - bytes_read
decreasing_by
  split <;> omega

/-- The body of `for (s = 0; s < sections; s++)` for one value of `s`. -/
def dump_section (b : Backend) (fa : Nat) (hdr : image_header)
    (img_size bytes_to_show s : Nat) : List Event :=
  (if s = 1 then [Event.skipped_middle] else []) ++
    dump_chunks b fa hdr
      (if s = 1 then u32_sub (u32_add hdr.ih_hdr_size img_size) bytes_to_show
        else hdr.ih_hdr_size)
      bytes_to_show 0

/-- The function `print_image_content`. -/
def print_image_content (b : Backend) (name : List Char)
    (img_id img_address slot_size : Nat) : List Event :=
  Event.title name :: Event.slot img_address slot_size :: Event.flash_area_open img_id ::
    (if (b.flash_area_open img_id).1 ≠ 0 then
      [Event.open_failed]
    else
      let fa := (b.flash_area_open img_id).2
      Event.boot_image_load_header fa ::
        (if (b.boot_image_load_header fa).1 ≠ 0 then
          [Event.no_image, Event.flash_area_close fa]
        else
          let hdr := (b.boot_image_load_header fa).2
          if hdr.ih_magic ≠ b.IMAGE_MAGIC then
            [Event.invalid_magic hdr.ih_magic, Event.flash_area_close fa]
          else
            let img_size := hdr.ih_img_size
            let bytes_to_show := if img_size ≤ 1024 then img_size else 512
            let sections := if img_size ≤ 1024 then 1 else 2
            Event.version hdr.ih_ver.iv_major hdr.ih_ver.iv_minor hdr.ih_ver.iv_revision
                hdr.ih_ver.iv_build_num ::
              Event.image_size img_size :: Event.content_heading ::
              ((List.range sections).flatMap (dump_section b fa hdr img_size bytes_to_show)
                ++ [Event.flash_area_close fa])))

/-! ## The dump as the specification describes it -/

/-- The partition offset of chunk `k` of the payload range starting at
`start`, as a 32-bit value. -/
def chunk_offset (hdr : image_header) (start k : Nat) : Nat :=
  (hdr.ih_hdr_size + start + 16 * k) % 4294967296

/-- The length of chunk `k` of a range of `len` bytes. -/
def chunk_len (len k : Nat) : Nat := min 16 (len - 16 * k)

/-- The read and the row of chunk `k` of the payload range
`[start, start + len)`: the read at the partition offset of the chunk, the
row labelled with the payload offset of the chunk. -/
def chunk_events (b : Backend) (fa : Nat) (hdr : image_header) (start len k : Nat) :
    List Event :=
  [Event.flash_area_read fa (chunk_offset hdr start k) (chunk_len len k),
   Event.row (start + 16 * k)
     (fill_buffer (b.flash_area_read fa (chunk_offset hdr start k) (chunk_len len k)).2
       (chunk_len len k))
     (chunk_len len k)]

/-- The dump of the payload range `[start, start + len)` in consecutive
chunks of at most 16 bytes, one read and one row per chunk. -/
def range_dump (b : Backend) (fa : Nat) (hdr : image_header) (start len : Nat) :
    List Event :=
  (List.range ((len + 15) / 16)).flatMap (chunk_events b fa hdr start len)

/-- Everything an inspection does up to and including the header summary,
for a header that passed the checks. -/
def summary (name : List Char) (img_id img_address slot_size fa : Nat)
    (hdr : image_header) : List Event :=
  [Event.title name, Event.slot img_address slot_size, Event.flash_area_open img_id,
   Event.boot_image_load_header fa,
   Event.version hdr.ih_ver.iv_major hdr.ih_ver.iv_minor hdr.ih_ver.iv_revision
     hdr.ih_ver.iv_build_num,
   Event.image_size hdr.ih_img_size, Event.content_heading]

/-- Collaborator calls. -/
def Event.is_call : Event → Bool
  | .flash_area_open _ => true
  | .boot_image_load_header _ => true
  | .flash_area_read _ _ _ => true
  | .flash_area_close _ => true
  | _ => false

/-- Calls of `flash_area_close`. -/
def Event.is_close : Event → Bool
  | .flash_area_close _ => true
  | _ => false

/-- Calls of `flash_area_read`. -/
def Event.is_read : Event → Bool
  | .flash_area_read _ _ _ => true
  | _ => false

/-- Dump rows. -/
def Event.is_row : Event → Bool
  | .row _ _ _ => true
  | _ => false

/-- The version line. -/
def Event.is_version : Event → Bool
  | .version _ _ _ _ => true
  | _ => false

/-- The image-size line. -/
def Event.is_image_size : Event → Bool
  | .image_size _ => true
  | _ => false

/-- The value of a hexadecimal digit. -/
def hex_value (c : Char) : Option Nat :=
  if 48 ≤ c.toNat ∧ c.toNat ≤ 57 then some (c.toNat - 48)
  else if 97 ≤ c.toNat ∧ c.toNat ≤ 102 then some (c.toNat - 87)
  else if 65 ≤ c.toNat ∧ c.toNat ≤ 70 then some (c.toNat - 55)
  else none

/-- Reads a hex column back: blanks are skipped, every value is two
hexadecimal digits followed by a blank. -/
def parse_hex_column : List Char → Option (List Nat)
  | [] => some []
  | c :: rest =>
    if c = ' ' then parse_hex_column rest
    else
      match rest with
      | d :: e :: rest2 =>
        if e = ' ' then
          match hex_value c, hex_value d, parse_hex_column rest2 with
          | some x, some y, some r => some ((16 * x + y) :: r)
          | _, _, _ => none
        else none
      | _ => none

/-- The handle `fa` that `flash_area_open` stores for partition `img_id`. -/
def opened_handle (b : Backend) (img_id : Nat) : Nat := (b.flash_area_open img_id).2

/-- The header `hdr` that `boot_image_load_header` stores for partition
`img_id`. -/
def loaded_header (b : Backend) (img_id : Nat) : image_header :=
  (b.boot_image_load_header (opened_handle b img_id)).2

/-- The checks of `print_image_content` before the header summary: the
partition opens, the header loads and its magic is `IMAGE_MAGIC`. -/
def header_accepted (b : Backend) (img_id : Nat) : Prop :=
  (b.flash_area_open img_id).1 = 0 ∧
  (b.boot_image_load_header (opened_handle b img_id)).1 = 0 ∧
  (loaded_header b img_id).ih_magic = b.IMAGE_MAGIC

/-- Every read of the opened partition succeeds. -/
def reads_succeed (b : Backend) (img_id : Nat) : Prop :=
  ∀ off len, (b.flash_area_read (opened_handle b img_id) off len).1 = 0

/-- A backend for examples: `flash_area_open` returns `open_ret` and the
handle 7, the loader returns `load_ret` and the given header, a read at a
partition offset marked `bad` fails, and the byte at partition offset `p` is
`p % 256`. -/
def test_backend (open_ret load_ret : Int) (hdr : image_header) (bad : Nat → Bool) :
    Backend :=
  ⟨2532554813, fun _ => (open_ret, 7), fun _ => (load_ret, hdr),
    fun _ off len => (if bad off then -5 else 0, (List.range len).map (fun i => (off + i) % 256))⟩

/-- A backend for examples on which every call succeeds. -/
def sample_backend (hdr : image_header) : Backend :=
  test_backend 0 0 hdr (fun _ => false)

/-- A backend for examples holding a 2048-byte image behind a 32-byte
header, on which the read at partition offset 80 (payload offset 48) fails. -/
def faulty_backend : Backend :=
  test_backend 0 0 ⟨2532554813, 32, 2048, ⟨1, 2, 3, 4⟩⟩ (fun off => off == 80)

/-- A header for examples, with the magic of `sample_backend` and version
`1.2.3+4`. -/
def sample_header (hdr_size img_size : Nat) : image_header :=
  ⟨2532554813, hdr_size, img_size, ⟨1, 2, 3, 4⟩⟩

/-! ## The chunk loop -/

theorem dump_chunks_done (b : Backend) (fa : Nat) (hdr : image_header)
    (so len br : Nat) (h : len ≤ br) : dump_chunks b fa hdr so len br = [] := by
  rw [dump_chunks]
  simp [Nat.not_lt.mpr h]

theorem dump_chunks_full_ok (b : Backend) (fa : Nat) (hdr : image_header)
    (so len br : Nat) (h : br + 16 ≤ len)
    (hok : (b.flash_area_read fa (u32_add so br) 16).1 = 0) :
    dump_chunks b fa hdr so len br =
      Event.flash_area_read fa (u32_add so br) 16 ::
        Event.row (u32_add (u32_sub so hdr.ih_hdr_size) br)
          (fill_buffer (b.flash_area_read fa (u32_add so br) 16).2 16) 16 ::
        dump_chunks b fa hdr so len (br + 16) := by
  rw [dump_chunks]
  have h1 : br < len := by omega
  have h2 : ¬ (len - br < 16) := by omega
  simp [h1, h2, hok]

theorem dump_chunks_short_ok (b : Backend) (fa : Nat) (hdr : image_header)
    (so len br : Nat) (h : br < len) (hs : len - br < 16)
    (hok : (b.flash_area_read fa (u32_add so br) (len - br)).1 = 0) :
    dump_chunks b fa hdr so len br =
      [Event.flash_area_read fa (u32_add so br) (len - br),
        Event.row (u32_add (u32_sub so hdr.ih_hdr_size) br)
          (fill_buffer (b.flash_area_read fa (u32_add so br) (len - br)).2 (len - br))
          (len - br)] := by
  rw [dump_chunks]
  have h3 : dump_chunks b fa hdr so len (br + (len - br)) = [] :=
    dump_chunks_done b fa hdr so len _ (by omega)
  simp [h, hs, hok, h3]

theorem dump_chunks_failed (b : Backend) (fa : Nat) (hdr : image_header)
    (so len br : Nat) (h : br < len)
    (hbad : (b.flash_area_read fa (u32_add so br) (min 16 (len - br))).1 ≠ 0) :
    dump_chunks b fa hdr so len br =
      [Event.flash_area_read fa (u32_add so br) (min 16 (len - br)),
        Event.read_failed (u32_add so br)] := by
  rw [dump_chunks]
  by_cases hs : len - br < 16
  · have hm : min 16 (len - br) = len - br := by omega
    rw [hm] at hbad
    simp [h, hs, hbad, hm]
  · have hm : min 16 (len - br) = 16 := by omega
    rw [hm] at hbad
    simp [h, hs, hbad, hm]

/-- The loop, started at chunk `i` of a range whose remaining reads all
succeed, performs the remaining chunks of the range in order. -/
theorem dump_chunks_from (b : Backend) (fa : Nat) (hdr : image_header)
    (so start len : Nat)
    (hoff : ∀ k, 16 * k < len → u32_add so (16 * k) = chunk_offset hdr start k)
    (hlab : ∀ k, 16 * k < len →
      u32_add (u32_sub so hdr.ih_hdr_size) (16 * k) = start + 16 * k)
    (hok : ∀ k, 16 * k < len →
      (b.flash_area_read fa (chunk_offset hdr start k) (chunk_len len k)).1 = 0) :
    ∀ n i, i + n = (len + 15) / 16 →
      dump_chunks b fa hdr so len (16 * i) =
        (List.range' i n).flatMap (chunk_events b fa hdr start len) := by
  intro n
  induction n with
  | zero =>
    intro i hi
    rw [dump_chunks_done b fa hdr so len (16 * i) (by omega)]
    simp
  | succ n ih =>
    intro i hi
    have hlt : 16 * i < len := by omega
    have ho := hoff i hlt
    have hl := hlab i hlt
    have hk := hok i hlt
    rw [List.range'_succ, List.flatMap_cons]
    by_cases hs : len - 16 * i < 16
    · have hn : n = 0 := by omega
      have hc : chunk_len len i = len - 16 * i := by unfold chunk_len; omega
      rw [hc] at hk
      rw [dump_chunks_short_ok b fa hdr so len (16 * i) hlt hs (by rw [ho]; exact hk)]
      subst hn
      simp [chunk_events, ho, hl, hc]
    · have hc : chunk_len len i = 16 := by unfold chunk_len; omega
      rw [hc] at hk
      rw [dump_chunks_full_ok b fa hdr so len (16 * i) (by omega) (by rw [ho]; exact hk)]
      have hrec := ih (i + 1) (by omega)
      have e16 : 16 * (i + 1) = 16 * i + 16 := by omega
      rw [e16] at hrec
      rw [hrec]
      simp [chunk_events, ho, hl, hc]

/-- A range whose reads all succeed is dumped chunk by chunk. -/
theorem dump_chunks_all (b : Backend) (fa : Nat) (hdr : image_header)
    (so start len : Nat)
    (hoff : ∀ k, 16 * k < len → u32_add so (16 * k) = chunk_offset hdr start k)
    (hlab : ∀ k, 16 * k < len →
      u32_add (u32_sub so hdr.ih_hdr_size) (16 * k) = start + 16 * k)
    (hok : ∀ k, 16 * k < len →
      (b.flash_area_read fa (chunk_offset hdr start k) (chunk_len len k)).1 = 0) :
    dump_chunks b fa hdr so len 0 = range_dump b fa hdr start len := by
  have h := dump_chunks_from b fa hdr so start len hoff hlab hok ((len + 15) / 16) 0 (by omega)
  rw [range_dump, List.range_eq_range']
  simpa using h

/-- The loop stops at the first failing read: the chunks before it are
dumped, the failing chunk yields its read and one error line. -/
theorem dump_chunks_until (b : Backend) (fa : Nat) (hdr : image_header)
    (so start len j : Nat) (hj : 16 * j < len)
    (hoff : ∀ k, 16 * k < len → u32_add so (16 * k) = chunk_offset hdr start k)
    (hlab : ∀ k, 16 * k < len →
      u32_add (u32_sub so hdr.ih_hdr_size) (16 * k) = start + 16 * k)
    (hok : ∀ k, k < j →
      (b.flash_area_read fa (chunk_offset hdr start k) (chunk_len len k)).1 = 0)
    (hbad : (b.flash_area_read fa (chunk_offset hdr start j) (chunk_len len j)).1 ≠ 0) :
    ∀ n i, i + n = j →
      dump_chunks b fa hdr so len (16 * i) =
        (List.range' i n).flatMap (chunk_events b fa hdr start len) ++
          [Event.flash_area_read fa (chunk_offset hdr start j) (chunk_len len j),
            Event.read_failed (chunk_offset hdr start j)] := by
  intro n
  induction n with
  | zero =>
    intro i hi
    have hij : i = j := by omega
    subst hij
    have ho := hoff i hj
    have hb : (b.flash_area_read fa (u32_add so (16 * i)) (min 16 (len - 16 * i))).1 ≠ 0 := by
      rw [ho]; exact hbad
    rw [dump_chunks_failed b fa hdr so len (16 * i) hj hb]
    simp [ho, chunk_len]
  | succ n ih =>
    intro i hi
    have hlt : 16 * i + 16 ≤ len := by omega
    have ho := hoff i (by omega)
    have hl := hlab i (by omega)
    have hk := hok i (by omega)
    have hc : chunk_len len i = 16 := by unfold chunk_len; omega
    rw [hc] at hk
    rw [dump_chunks_full_ok b fa hdr so len (16 * i) hlt (by rw [ho]; exact hk)]
    have hrec := ih (i + 1) (by omega)
    have e16 : 16 * (i + 1) = 16 * i + 16 := by omega
    rw [e16] at hrec
    rw [hrec, List.range'_succ, List.flatMap_cons]
    simp [chunk_events, ho, hl, hc]

/-- One turn of the loop. -/
theorem dump_chunks_turn (b : Backend) (fa : Nat) (hdr : image_header)
    (so len br : Nat) (h : br < len) :
    dump_chunks b fa hdr so len br =
      Event.flash_area_read fa (u32_add so br) (min 16 (len - br)) ::
        (if (b.flash_area_read fa (u32_add so br) (min 16 (len - br))).1 ≠ 0 then
          [Event.read_failed (u32_add so br)]
        else
          Event.row (u32_add (u32_sub so hdr.ih_hdr_size) br)
            (fill_buffer (b.flash_area_read fa (u32_add so br) (min 16 (len - br))).2
              (min 16 (len - br))) (min 16 (len - br)) ::
          dump_chunks b fa hdr so len (br + min 16 (len - br))) := by
  rw [dump_chunks]
  by_cases hs : len - br < 16
  · have hm : min 16 (len - br) = len - br := by omega
    simp [h, hs, hm]
  · have hm : min 16 (len - br) = 16 := by omega
    simp [h, hs, hm]

/-- Whatever the backend does, the loop only reads, prints rows and prints
read errors; a row belongs to a position inside the range and shows between
1 and 16 bytes of a 16-byte buffer. -/
theorem dump_chunks_events (b : Backend) (fa : Nat) (hdr : image_header)
    (so len : Nat) :
    ∀ n br, len - br ≤ n → ∀ e ∈ dump_chunks b fa hdr so len br,
      (∃ off n, e = Event.flash_area_read fa off n) ∨
      (∃ off, e = Event.read_failed off) ∨
      (∃ p buf cs, br ≤ p ∧ p < len ∧ (br % 16 = 0 → p % 16 = 0) ∧ 1 ≤ cs ∧ cs ≤ 16 ∧
        buf.length = 16 ∧ (∀ x ∈ buf, x < 256) ∧
        e = Event.row (u32_add (u32_sub so hdr.ih_hdr_size) p) buf cs) := by
  intro n
  induction n with
  | zero =>
    intro br hbr e he
    rw [dump_chunks_done b fa hdr so len br (by omega)] at he
    simp at he
  | succ n ih =>
    intro br hbr e he
    by_cases h : br < len
    · rw [dump_chunks_turn b fa hdr so len br h] at he
      rcases List.mem_cons.mp he with he | he
      · exact Or.inl ⟨_, _, he⟩
      · split at he
        · simp at he
          exact Or.inr (Or.inl ⟨_, he⟩)
        · rcases List.mem_cons.mp he with he | he
          · refine Or.inr (Or.inr ⟨br, _, min 16 (len - br), Nat.le_refl _, h, fun hm => hm,
              by omega, by omega, by simp [fill_buffer], ?_, he⟩)
            intro x hx
            simp only [fill_buffer, List.mem_map, List.mem_range] at hx
            obtain ⟨i, _, hi⟩ := hx
            subst hi
            split
            · exact Nat.mod_lt _ (by decide)
            · decide
          · rcases ih (br + min 16 (len - br)) (by omega) e he with h1 | h1 | h1
            · exact Or.inl h1
            · exact Or.inr (Or.inl h1)
            · obtain ⟨p, buf, cs, hp, hlt, hmul, hrest⟩ := h1
              exact Or.inr (Or.inr ⟨p, buf, cs, by omega, hlt, by omega, hrest⟩)
    · rw [dump_chunks_done b fa hdr so len br (by omega)] at he
      simp at he

/-! ## Offsets of the two sections -/

theorem head_offset (hdr : image_header) (k : Nat) :
    u32_add hdr.ih_hdr_size (16 * k) = chunk_offset hdr 0 k := by
  simp [u32_add, chunk_offset]

theorem head_label (hdr : image_header) (k : Nat) (hk : 16 * k < 4294967296) :
    u32_add (u32_sub hdr.ih_hdr_size hdr.ih_hdr_size) (16 * k) = 0 + 16 * k := by
  unfold u32_add u32_sub
  omega

theorem tail_offset (hdr : image_header) (k : Nat) (h1 : 512 ≤ hdr.ih_img_size) :
    u32_add (u32_sub (u32_add hdr.ih_hdr_size hdr.ih_img_size) 512) (16 * k) =
      chunk_offset hdr (hdr.ih_img_size - 512) k := by
  unfold u32_add u32_sub chunk_offset
  omega

theorem tail_label (hdr : image_header) (k : Nat) (h1 : 512 ≤ hdr.ih_img_size)
    (h2 : hdr.ih_img_size < 4294967296) (hk : 16 * k < 512) :
    u32_add (u32_sub (u32_sub (u32_add hdr.ih_hdr_size hdr.ih_img_size) 512)
        hdr.ih_hdr_size) (16 * k) = hdr.ih_img_size - 512 + 16 * k := by
  unfold u32_add u32_sub
  omega

/-! ## The trace of an inspection -/

theorem trace_open_failed (b : Backend) (name : List Char) (img_id img_address slot_size : Nat)
    (h : (b.flash_area_open img_id).1 ≠ 0) :
    print_image_content b name img_id img_address slot_size =
      [Event.title name, Event.slot img_address slot_size, Event.flash_area_open img_id,
        Event.open_failed] := by
  simp [print_image_content, h]

theorem trace_load_failed (b : Backend) (name : List Char) (img_id img_address slot_size : Nat)
    (h : (b.flash_area_open img_id).1 = 0)
    (hl : (b.boot_image_load_header (opened_handle b img_id)).1 ≠ 0) :
    print_image_content b name img_id img_address slot_size =
      [Event.title name, Event.slot img_address slot_size, Event.flash_area_open img_id,
        Event.boot_image_load_header (opened_handle b img_id), Event.no_image,
        Event.flash_area_close (opened_handle b img_id)] := by
  unfold opened_handle at hl
  simp [print_image_content, h, hl, opened_handle]

theorem trace_bad_magic (b : Backend) (name : List Char) (img_id img_address slot_size : Nat)
    (h : (b.flash_area_open img_id).1 = 0)
    (hl : (b.boot_image_load_header (opened_handle b img_id)).1 = 0)
    (hm : (loaded_header b img_id).ih_magic ≠ b.IMAGE_MAGIC) :
    print_image_content b name img_id img_address slot_size =
      [Event.title name, Event.slot img_address slot_size, Event.flash_area_open img_id,
        Event.boot_image_load_header (opened_handle b img_id),
        Event.invalid_magic (loaded_header b img_id).ih_magic,
        Event.flash_area_close (opened_handle b img_id)] := by
  unfold loaded_header opened_handle at hm
  unfold opened_handle at hl
  simp [print_image_content, h, hl, hm, opened_handle, loaded_header]

theorem trace_accepted (b : Backend) (name : List Char) (img_id img_address slot_size : Nat)
    (h : header_accepted b img_id) :
    print_image_content b name img_id img_address slot_size =
      summary name img_id img_address slot_size (opened_handle b img_id)
          (loaded_header b img_id) ++
        (List.range (if (loaded_header b img_id).ih_img_size ≤ 1024 then 1 else 2)).flatMap
          (dump_section b (opened_handle b img_id) (loaded_header b img_id)
            (loaded_header b img_id).ih_img_size
            (if (loaded_header b img_id).ih_img_size ≤ 1024
              then (loaded_header b img_id).ih_img_size else 512)) ++
        [Event.flash_area_close (opened_handle b img_id)] := by
  obtain ⟨h1, h2, h3⟩ := h
  unfold loaded_header opened_handle at h3
  unfold opened_handle at h2
  simp [print_image_content, h1, h2, h3, opened_handle, loaded_header, summary]

theorem trace_one_section (b : Backend) (name : List Char)
    (img_id img_address slot_size : Nat) (h : header_accepted b img_id)
    (hsmall : (loaded_header b img_id).ih_img_size ≤ 1024) :
    print_image_content b name img_id img_address slot_size =
      summary name img_id img_address slot_size (opened_handle b img_id)
          (loaded_header b img_id) ++
        dump_chunks b (opened_handle b img_id) (loaded_header b img_id)
          (loaded_header b img_id).ih_hdr_size (loaded_header b img_id).ih_img_size 0 ++
        [Event.flash_area_close (opened_handle b img_id)] := by
  rw [trace_accepted b name img_id img_address slot_size h]
  simp [hsmall, dump_section, List.range_succ]

theorem trace_two_sections (b : Backend) (name : List Char)
    (img_id img_address slot_size : Nat) (h : header_accepted b img_id)
    (hbig : 1024 < (loaded_header b img_id).ih_img_size) :
    print_image_content b name img_id img_address slot_size =
      summary name img_id img_address slot_size (opened_handle b img_id)
          (loaded_header b img_id) ++
        dump_chunks b (opened_handle b img_id) (loaded_header b img_id)
          (loaded_header b img_id).ih_hdr_size 512 0 ++
        [Event.skipped_middle] ++
        dump_chunks b (opened_handle b img_id) (loaded_header b img_id)
          (u32_sub (u32_add (loaded_header b img_id).ih_hdr_size
            (loaded_header b img_id).ih_img_size) 512) 512 0 ++
        [Event.flash_area_close (opened_handle b img_id)] := by
  rw [trace_accepted b name img_id img_address slot_size h]
  have hn : ¬ (loaded_header b img_id).ih_img_size ≤ 1024 := by omega
  simp [hn, dump_section, List.range_succ]

/-- The head of a large image, or the whole of a small one, when its reads
succeed. -/
theorem head_dump (b : Backend) (fa : Nat) (hdr : image_header) (len : Nat)
    (hlen : len ≤ 1024)
    (hok : ∀ k, 16 * k < len →
      (b.flash_area_read fa (chunk_offset hdr 0 k) (chunk_len len k)).1 = 0) :
    dump_chunks b fa hdr hdr.ih_hdr_size len 0 = range_dump b fa hdr 0 len :=
  dump_chunks_all b fa hdr hdr.ih_hdr_size 0 len
    (fun k _ => head_offset hdr k)
    (fun k hk => head_label hdr k (by omega)) hok

/-- The tail of a large image when its reads succeed. -/
theorem tail_dump (b : Backend) (fa : Nat) (hdr : image_header)
    (h1 : 512 ≤ hdr.ih_img_size) (h2 : hdr.ih_img_size < 4294967296)
    (hok : ∀ k, 16 * k < 512 →
      (b.flash_area_read fa (chunk_offset hdr (hdr.ih_img_size - 512) k)
        (chunk_len 512 k)).1 = 0) :
    dump_chunks b fa hdr (u32_sub (u32_add hdr.ih_hdr_size hdr.ih_img_size) 512) 512 0 =
      range_dump b fa hdr (hdr.ih_img_size - 512) 512 :=
  dump_chunks_all b fa hdr _ (hdr.ih_img_size - 512) 512
    (fun k _ => tail_offset hdr k h1)
    (fun k hk => tail_label hdr k h1 h2 hk) hok

theorem trace_small (b : Backend) (name : List Char)
    (img_id img_address slot_size : Nat) (h : header_accepted b img_id)
    (hreads : reads_succeed b img_id)
    (hsmall : (loaded_header b img_id).ih_img_size ≤ 1024) :
    print_image_content b name img_id img_address slot_size =
      summary name img_id img_address slot_size (opened_handle b img_id)
          (loaded_header b img_id) ++
        range_dump b (opened_handle b img_id) (loaded_header b img_id) 0
          (loaded_header b img_id).ih_img_size ++
        [Event.flash_area_close (opened_handle b img_id)] := by
  rw [trace_one_section b name img_id img_address slot_size h hsmall,
    head_dump b _ _ _ hsmall (fun k _ => hreads _ _)]

theorem trace_big (b : Backend) (name : List Char)
    (img_id img_address slot_size : Nat) (h : header_accepted b img_id)
    (hfits : (loaded_header b img_id).fits)
    (hreads : reads_succeed b img_id)
    (hbig : 1024 < (loaded_header b img_id).ih_img_size) :
    print_image_content b name img_id img_address slot_size =
      summary name img_id img_address slot_size (opened_handle b img_id)
          (loaded_header b img_id) ++
        range_dump b (opened_handle b img_id) (loaded_header b img_id) 0 512 ++
        [Event.skipped_middle] ++
        range_dump b (opened_handle b img_id) (loaded_header b img_id)
          ((loaded_header b img_id).ih_img_size - 512) 512 ++
        [Event.flash_area_close (opened_handle b img_id)] := by
  rw [trace_two_sections b name img_id img_address slot_size h hbig,
    head_dump b _ _ 512 (by omega) (fun k _ => hreads _ _),
    tail_dump b _ _ (by omega) hfits.2.2 (fun k _ => hreads _ _)]

theorem range_dump_no_marker (b : Backend) (fa : Nat) (hdr : image_header)
    (start len : Nat) : Event.skipped_middle ∉ range_dump b fa hdr start len := by
  simp [range_dump, chunk_events]

theorem summary_no_marker (name : List Char) (img_id img_address slot_size fa : Nat)
    (hdr : image_header) :
    Event.skipped_middle ∉ summary name img_id img_address slot_size fa hdr := by
  simp [summary]

theorem sample_accepted (hdr_size img_size img_id : Nat) :
    header_accepted (sample_backend (sample_header hdr_size img_size)) img_id :=
  ⟨rfl, rfl, rfl⟩

theorem sample_reads (hdr : image_header) (img_id : Nat) :
    reads_succeed (sample_backend hdr) img_id := fun _ _ => rfl

/-- Past a successful open, whatever the backend does, the inspection ends
with the close of the opened handle and closes nothing before. -/
theorem trace_ends_with_close (b : Backend) (name : List Char)
    (img_id img_address slot_size : Nat) (h : (b.flash_area_open img_id).1 = 0) :
    ∃ body, print_image_content b name img_id img_address slot_size =
        body ++ [Event.flash_area_close (opened_handle b img_id)] ∧
      ∀ e ∈ body, e.is_close = false := by
  by_cases hl : (b.boot_image_load_header (opened_handle b img_id)).1 = 0
  · by_cases hm : (loaded_header b img_id).ih_magic = b.IMAGE_MAGIC
    · refine ⟨_, trace_accepted b name img_id img_address slot_size ⟨h, hl, hm⟩, ?_⟩
      intro e he
      rcases List.mem_append.mp he with he | he
      · simp only [summary, List.mem_cons, List.mem_singleton, List.not_mem_nil, or_false] at he
        rcases he with he | he | he | he | he | he | he <;> subst he <;> rfl
      · obtain ⟨s, _, hs⟩ := List.mem_flatMap.mp he
        unfold dump_section at hs
        rcases List.mem_append.mp hs with hs | hs
        · split at hs
          · simp at hs
            subst hs
            rfl
          · simp at hs
        · rcases dump_chunks_events b _ _ _ _ _ 0 (Nat.le_refl _) e hs with h1 | h1 | h1
          · obtain ⟨_, _, h1⟩ := h1
            subst h1
            rfl
          · obtain ⟨_, h1⟩ := h1
            subst h1
            rfl
          · obtain ⟨_, _, _, _, _, _, _, _, _, _, h1⟩ := h1
            subst h1
            rfl
    · refine ⟨[Event.title name, Event.slot img_address slot_size,
          Event.flash_area_open img_id,
          Event.boot_image_load_header (opened_handle b img_id),
          Event.invalid_magic (loaded_header b img_id).ih_magic], by
        rw [trace_bad_magic b name img_id img_address slot_size h hl hm]
        rfl, ?_⟩
      intro e he
      simp only [List.mem_cons, List.mem_singleton, List.not_mem_nil, or_false] at he
      rcases he with he | he | he | he | he <;> subst he <;> rfl
  · refine ⟨[Event.title name, Event.slot img_address slot_size,
        Event.flash_area_open img_id,
        Event.boot_image_load_header (opened_handle b img_id), Event.no_image], by
        rw [trace_load_failed b name img_id img_address slot_size h hl]
        rfl, ?_⟩
    intro e he
    simp only [List.mem_cons, List.mem_singleton, List.not_mem_nil, or_false] at he
    rcases he with he | he | he | he | he <;> subst he <;> rfl

theorem chunks_filter_steps (b : Backend) (fa : Nat) (hdr : image_header) (start len : Nat)
    (l : List Nat) :
    (l.flatMap (chunk_events b fa hdr start len)).filter (fun e => e.is_read || e.is_row) =
      l.flatMap (chunk_events b fa hdr start len) := by
  induction l with
  | nil => rfl
  | cons k l ih =>
    rw [List.flatMap_cons, List.filter_append, ih]
    simp [chunk_events, Event.is_read, Event.is_row]

theorem chunks_filter_rows (b : Backend) (fa : Nat) (hdr : image_header) (start len : Nat)
    (l : List Nat) :
    ((l.flatMap (chunk_events b fa hdr start len)).filter Event.is_row).length = l.length := by
  induction l with
  | nil => rfl
  | cons k l ih =>
    rw [List.flatMap_cons, List.filter_append, List.length_append, ih]
    simp [chunk_events, Event.is_row]
    omega

theorem chunks_filter_reads (b : Backend) (fa : Nat) (hdr : image_header) (start len : Nat)
    (l : List Nat) :
    ((l.flatMap (chunk_events b fa hdr start len)).filter Event.is_read).length = l.length := by
  induction l with
  | nil => rfl
  | cons k l ih =>
    rw [List.flatMap_cons, List.filter_append, List.length_append, ih]
    simp [chunk_events, Event.is_read]
    omega

theorem summary_filter_steps (name : List Char) (img_id img_address slot_size fa : Nat)
    (hdr : image_header) :
    (summary name img_id img_address slot_size fa hdr).filter
      (fun e => e.is_read || e.is_row) = [] := by
  simp [summary, Event.is_read, Event.is_row]

theorem summary_filter_rows (name : List Char) (img_id img_address slot_size fa : Nat)
    (hdr : image_header) :
    (summary name img_id img_address slot_size fa hdr).filter Event.is_row = [] := by
  simp [summary, Event.is_row]

theorem chunk_events_fun (b : Backend) (fa : Nat) (hdr : image_header) (start len : Nat) :
    chunk_events b fa hdr start len = fun k =>
      [Event.flash_area_read fa ((hdr.ih_hdr_size + start + 16 * k) % 4294967296)
          (min 16 (len - 16 * k)),
        Event.row (start + 16 * k)
          (fill_buffer
            (b.flash_area_read fa ((hdr.ih_hdr_size + start + 16 * k) % 4294967296)
              (min 16 (len - 16 * k))).2
            (min 16 (len - 16 * k)))
          (min 16 (len - 16 * k))] := rfl

theorem chunk_len_full (k : Nat) (hk : k < 32) : chunk_len 512 k = 16 := by
  unfold chunk_len
  omega

/-! ## Claims -/

/-- C1: for an accepted header with `image_size > 1024` and a backend whose
reads all succeed, the inspection dumps the head `[0, 512)`, then prints the
skipped-middle marker, then dumps the tail `[image_size - 512, image_size)`
and closes the partition; the marker occurs exactly once; the two ranges do
not overlap and lie inside `[0, image_size)`. -/
theorem large_image_two_ranges (b : Backend) (name : List Char)
    (img_id img_address slot_size : Nat) (h : header_accepted b img_id)
    (hfits : (loaded_header b img_id).fits)
    (hreads : reads_succeed b img_id)
    (hbig : 1024 < (loaded_header b img_id).ih_img_size) :
    print_image_content b name img_id img_address slot_size =
      summary name img_id img_address slot_size (opened_handle b img_id)
          (loaded_header b img_id) ++
        range_dump b (opened_handle b img_id) (loaded_header b img_id) 0 512 ++
        [Event.skipped_middle] ++
        range_dump b (opened_handle b img_id) (loaded_header b img_id)
          ((loaded_header b img_id).ih_img_size - 512) 512 ++
        [Event.flash_area_close (opened_handle b img_id)] ∧
    (print_image_content b name img_id img_address slot_size).count Event.skipped_middle = 1 ∧
    0 + 512 ≤ (loaded_header b img_id).ih_img_size - 512 ∧
    (loaded_header b img_id).ih_img_size - 512 + 512 ≤ (loaded_header b img_id).ih_img_size := by
  have ht := trace_big b name img_id img_address slot_size h hfits hreads hbig
  refine ⟨ht, ?_, by omega, by omega⟩
  rw [ht]
  simp only [List.count_append]
  rw [List.count_eq_zero.mpr (summary_no_marker _ _ _ _ _ _),
    List.count_eq_zero.mpr (range_dump_no_marker _ _ _ _ _),
    List.count_eq_zero.mpr (range_dump_no_marker _ _ _ _ _)]
  simp

theorem large_image_two_ranges_witness :
    header_accepted (sample_backend (sample_header 32 2048)) 0 ∧
    (loaded_header (sample_backend (sample_header 32 2048)) 0).fits ∧
    reads_succeed (sample_backend (sample_header 32 2048)) 0 ∧
    1024 < (loaded_header (sample_backend (sample_header 32 2048)) 0).ih_img_size ∧
    (print_image_content (sample_backend (sample_header 32 2048)) ['A'] 0 4096 8192).count
      Event.skipped_middle = 1 ∧
    print_image_content (sample_backend (sample_header 32 2048)) ['A'] 0 4096 8192 =
      summary ['A'] 0 4096 8192 7 (sample_header 32 2048) ++
        range_dump (sample_backend (sample_header 32 2048)) 7 (sample_header 32 2048) 0 512 ++
        [Event.skipped_middle] ++
        range_dump (sample_backend (sample_header 32 2048)) 7 (sample_header 32 2048) 1536 512 ++
        [Event.flash_area_close 7] :=
  ⟨sample_accepted 32 2048 0, by decide, sample_reads _ 0, by decide,
    (large_image_two_ranges (sample_backend (sample_header 32 2048)) ['A'] 0 4096 8192
      (sample_accepted 32 2048 0) (by decide) (sample_reads _ 0) (by decide)).2.1,
    (large_image_two_ranges (sample_backend (sample_header 32 2048)) ['A'] 0 4096 8192
      (sample_accepted 32 2048 0) (by decide) (sample_reads _ 0) (by decide)).1⟩

/-- C2: for an accepted header with `image_size ≤ 1024` and a backend whose
reads all succeed, the inspection dumps the single range `[0, image_size)`
and closes the partition, without any skipped-middle marker; for
`image_size = 0` nothing follows the header summary but the close: no read
is issued and no row is printed. -/
theorem small_image_single_range (b : Backend) (name : List Char)
    (img_id img_address slot_size : Nat) (h : header_accepted b img_id)
    (hreads : reads_succeed b img_id)
    (hsmall : (loaded_header b img_id).ih_img_size ≤ 1024) :
    print_image_content b name img_id img_address slot_size =
      summary name img_id img_address slot_size (opened_handle b img_id)
          (loaded_header b img_id) ++
        range_dump b (opened_handle b img_id) (loaded_header b img_id) 0
          (loaded_header b img_id).ih_img_size ++
        [Event.flash_area_close (opened_handle b img_id)] ∧
    Event.skipped_middle ∉ print_image_content b name img_id img_address slot_size ∧
    ((loaded_header b img_id).ih_img_size = 0 →
      print_image_content b name img_id img_address slot_size =
        summary name img_id img_address slot_size (opened_handle b img_id)
            (loaded_header b img_id) ++
          [Event.flash_area_close (opened_handle b img_id)] ∧
      (print_image_content b name img_id img_address slot_size).filter
        (fun e => e.is_read || e.is_row) = []) := by
  have ht := trace_small b name img_id img_address slot_size h hreads hsmall
  refine ⟨ht, ?_, ?_⟩
  · rw [ht]
    simp [summary, range_dump, chunk_events]
  · intro h0
    rw [ht, h0]
    simp [summary, range_dump, Event.is_read, Event.is_row]

theorem small_image_single_range_witness :
    header_accepted (sample_backend (sample_header 32 40)) 0 ∧
    reads_succeed (sample_backend (sample_header 32 40)) 0 ∧
    (loaded_header (sample_backend (sample_header 32 40)) 0).ih_img_size ≤ 1024 ∧
    print_image_content (sample_backend (sample_header 32 40)) ['A'] 0 4096 8192 =
      summary ['A'] 0 4096 8192 7 (sample_header 32 40) ++
        range_dump (sample_backend (sample_header 32 40)) 7 (sample_header 32 40) 0 40 ++
        [Event.flash_area_close 7] ∧
    Event.skipped_middle ∉
      print_image_content (sample_backend (sample_header 32 40)) ['A'] 0 4096 8192 :=
  ⟨sample_accepted 32 40 0, sample_reads _ 0, by decide,
    (small_image_single_range (sample_backend (sample_header 32 40)) ['A'] 0 4096 8192
      (sample_accepted 32 40 0) (sample_reads _ 0) (by decide)).1,
    (small_image_single_range (sample_backend (sample_header 32 40)) ['A'] 0 4096 8192
      (sample_accepted 32 40 0) (sample_reads _ 0) (by decide)).2.1⟩

/-- C9: when `flash_area_open` fails, the inspection prints the banner and
the line `Failed to open flash area`, and its only collaborator call is the
failed `flash_area_open`: no header load, no read, no close. -/
theorem open_failure_reports_only (b : Backend) (name : List Char)
    (img_id img_address slot_size : Nat) (h : (b.flash_area_open img_id).1 ≠ 0) :
    print_image_content b name img_id img_address slot_size =
      [Event.title name, Event.slot img_address slot_size, Event.flash_area_open img_id,
        Event.open_failed] ∧
    (print_image_content b name img_id img_address slot_size).filter Event.is_call =
      [Event.flash_area_open img_id] ∧
    Event.text Event.open_failed = "Failed to open flash area\n".toList := by
  have ht := trace_open_failed b name img_id img_address slot_size h
  refine ⟨ht, ?_, rfl⟩
  rw [ht]
  simp [Event.is_call]

theorem open_failure_reports_only_witness :
    ((test_backend (-19) 0 (sample_header 32 2048) (fun _ => false)).flash_area_open 9).1 ≠ 0 ∧
    print_image_content (test_backend (-19) 0 (sample_header 32 2048) (fun _ => false))
        ['A'] 9 4096 8192 =
      [Event.title ['A'], Event.slot 4096 8192, Event.flash_area_open 9, Event.open_failed] :=
  ⟨by decide,
    (open_failure_reports_only (test_backend (-19) 0 (sample_header 32 2048) (fun _ => false))
      ['A'] 9 4096 8192 (by decide)).1⟩

/-- C6: when the partition opens and the header magic differs from
`IMAGE_MAGIC`, the inspection prints, after the banner, one diagnostic line
and stops after closing the partition: the line `No valid MCUboot image
found` when the loader reports a failure, the line `Invalid image magic:
0x<magic>` when the loader returns success; no version line, no image-size
line, no row is printed and no read is issued. -/
theorem bad_magic_stops (b : Backend) (name : List Char)
    (img_id img_address slot_size : Nat) (h : (b.flash_area_open img_id).1 = 0)
    (hm : (loaded_header b img_id).ih_magic ≠ b.IMAGE_MAGIC) :
    print_image_content b name img_id img_address slot_size =
      [Event.title name, Event.slot img_address slot_size, Event.flash_area_open img_id,
        Event.boot_image_load_header (opened_handle b img_id),
        (if (b.boot_image_load_header (opened_handle b img_id)).1 ≠ 0 then Event.no_image
          else Event.invalid_magic (loaded_header b img_id).ih_magic),
        Event.flash_area_close (opened_handle b img_id)] ∧
    (print_image_content b name img_id img_address slot_size).filter
      (fun e => e.is_version || e.is_image_size || e.is_row || e.is_read) = [] ∧
    Event.text Event.no_image = "No valid MCUboot image found\n".toList ∧
    Event.text (Event.invalid_magic (loaded_header b img_id).ih_magic) =
      "Invalid image magic: 0x".toList ++ fmt_x 8 (loaded_header b img_id).ih_magic
        ++ ['\n'] := by
  by_cases hl : (b.boot_image_load_header (opened_handle b img_id)).1 = 0
  · have ht := trace_bad_magic b name img_id img_address slot_size h hl hm
    refine ⟨by rw [ht]; simp [hl], ?_, rfl, rfl⟩
    rw [ht]
    simp [Event.is_version, Event.is_image_size, Event.is_row, Event.is_read]
  · have ht := trace_load_failed b name img_id img_address slot_size h hl
    refine ⟨by rw [ht]; simp [hl], ?_, rfl, rfl⟩
    rw [ht]
    simp [Event.is_version, Event.is_image_size, Event.is_row, Event.is_read]

theorem bad_magic_stops_witness :
    ((test_backend 0 3 ⟨4294967295, 65535, 4294967295, ⟨255, 255, 65535, 4294967295⟩⟩
      (fun _ => false)).flash_area_open 0).1 = 0 ∧
    print_image_content
        (test_backend 0 3 ⟨4294967295, 65535, 4294967295, ⟨255, 255, 65535, 4294967295⟩⟩
          (fun _ => false)) ['A'] 0 4096 8192 =
      [Event.title ['A'], Event.slot 4096 8192, Event.flash_area_open 0,
        Event.boot_image_load_header 7, Event.no_image, Event.flash_area_close 7] ∧
    print_image_content
        (test_backend 0 0 ⟨4294967295, 65535, 4294967295, ⟨255, 255, 65535, 4294967295⟩⟩
          (fun _ => false)) ['A'] 0 4096 8192 =
      [Event.title ['A'], Event.slot 4096 8192, Event.flash_area_open 0,
        Event.boot_image_load_header 7, Event.invalid_magic 4294967295,
        Event.flash_area_close 7] :=
  ⟨rfl,
    (bad_magic_stops
      (test_backend 0 3 ⟨4294967295, 65535, 4294967295, ⟨255, 255, 65535, 4294967295⟩⟩
        (fun _ => false)) ['A'] 0 4096 8192 rfl (by decide)).1,
    (bad_magic_stops
      (test_backend 0 0 ⟨4294967295, 65535, 4294967295, ⟨255, 255, 65535, 4294967295⟩⟩
        (fun _ => false)) ['A'] 0 4096 8192 rfl (by decide)).1⟩

/-- C3: whatever the backend does, if `flash_area_open` succeeds the
inspection calls `flash_area_close` exactly once, on the opened handle, and
that call is its last collaborator call; if `flash_area_open` fails it never
calls `flash_area_close`. -/
theorem close_exactly_once (b : Backend) (name : List Char)
    (img_id img_address slot_size : Nat) :
    ((b.flash_area_open img_id).1 = 0 →
      (print_image_content b name img_id img_address slot_size).filter Event.is_close =
          [Event.flash_area_close (opened_handle b img_id)] ∧
        ((print_image_content b name img_id img_address slot_size).filter
          Event.is_call).getLast? = some (Event.flash_area_close (opened_handle b img_id))) ∧
    ((b.flash_area_open img_id).1 ≠ 0 →
      (print_image_content b name img_id img_address slot_size).filter Event.is_close = []) := by
  constructor
  · intro h
    obtain ⟨body, ht, hbody⟩ := trace_ends_with_close b name img_id img_address slot_size h
    rw [ht]
    constructor
    · rw [List.filter_append, List.filter_eq_nil_iff.mpr (by
        intro e he
        simp [hbody e he])]
      rfl
    · rw [List.filter_append]
      simp [Event.is_call]
  · intro h
    rw [trace_open_failed b name img_id img_address slot_size h]
    rfl

theorem close_exactly_once_witness :
    ((test_backend 0 0 (sample_header 32 2048) (fun off => off == 48)).flash_area_open 0).1 = 0 ∧
    (print_image_content (test_backend 0 0 (sample_header 32 2048) (fun off => off == 48))
      ['A'] 0 4096 8192).filter Event.is_close = [Event.flash_area_close 7] ∧
    ((test_backend (-19) 0 (sample_header 32 2048) (fun _ => false)).flash_area_open 0).1 ≠ 0 ∧
    (print_image_content (test_backend (-19) 0 (sample_header 32 2048) (fun _ => false))
      ['A'] 0 4096 8192).filter Event.is_close = [] :=
  ⟨rfl,
    ((close_exactly_once (test_backend 0 0 (sample_header 32 2048) (fun off => off == 48))
      ['A'] 0 4096 8192).1 rfl).1,
    by decide,
    (close_exactly_once (test_backend (-19) 0 (sample_header 32 2048) (fun _ => false))
      ['A'] 0 4096 8192).2 (by decide)⟩

/-- C5 (as the code has it): past a successful open, the header is treated
as valid, that is the version line is printed, exactly when the header load
succeeded and the magic equals `IMAGE_MAGIC`; the partition size is not
consulted, `slot_size` only appears in the banner; a valid header is followed
by the header summary, the dump and the close; for every header that is not
valid in this sense the inspection reports it and terminates: after the
banner, the open and the header load it prints one diagnostic line (`No
valid MCUboot image found` when the load failed, `Invalid image magic:
0x<magic>` otherwise), closes the partition and does nothing else, so it
prints no version line and no row and issues no read. -/
theorem header_validity (b : Backend) (name : List Char)
    (img_id img_address slot_size : Nat) (h : (b.flash_area_open img_id).1 = 0) :
    ((∃ e ∈ print_image_content b name img_id img_address slot_size, e.is_version = true) ↔
      ((b.boot_image_load_header (opened_handle b img_id)).1 = 0 ∧
        (loaded_header b img_id).ih_magic = b.IMAGE_MAGIC)) ∧
    (∃ rest, ∀ size, print_image_content b name img_id img_address size =
      Event.title name :: Event.slot img_address size :: rest) ∧
    (((b.boot_image_load_header (opened_handle b img_id)).1 = 0 ∧
        (loaded_header b img_id).ih_magic = b.IMAGE_MAGIC) →
      ∃ dump, print_image_content b name img_id img_address slot_size =
        summary name img_id img_address slot_size (opened_handle b img_id)
            (loaded_header b img_id) ++ dump ++
          [Event.flash_area_close (opened_handle b img_id)]) ∧
    (¬ ((b.boot_image_load_header (opened_handle b img_id)).1 = 0 ∧
        (loaded_header b img_id).ih_magic = b.IMAGE_MAGIC) →
      print_image_content b name img_id img_address slot_size =
        [Event.title name, Event.slot img_address slot_size, Event.flash_area_open img_id,
          Event.boot_image_load_header (opened_handle b img_id),
          (if (b.boot_image_load_header (opened_handle b img_id)).1 ≠ 0 then Event.no_image
            else Event.invalid_magic (loaded_header b img_id).ih_magic),
          Event.flash_area_close (opened_handle b img_id)] ∧
      (print_image_content b name img_id img_address slot_size).filter
        (fun e => e.is_version || e.is_row || e.is_read) = [] ∧
      Event.text Event.no_image = "No valid MCUboot image found\n".toList ∧
      Event.text (Event.invalid_magic (loaded_header b img_id).ih_magic) =
        "Invalid image magic: 0x".toList ++ fmt_x 8 (loaded_header b img_id).ih_magic
          ++ ['\n']) := by
  have hrej : ¬ ((b.boot_image_load_header (opened_handle b img_id)).1 = 0 ∧
        (loaded_header b img_id).ih_magic = b.IMAGE_MAGIC) →
      print_image_content b name img_id img_address slot_size =
        [Event.title name, Event.slot img_address slot_size, Event.flash_area_open img_id,
          Event.boot_image_load_header (opened_handle b img_id),
          (if (b.boot_image_load_header (opened_handle b img_id)).1 ≠ 0 then Event.no_image
            else Event.invalid_magic (loaded_header b img_id).ih_magic),
          Event.flash_area_close (opened_handle b img_id)] ∧
      (print_image_content b name img_id img_address slot_size).filter
        (fun e => e.is_version || e.is_row || e.is_read) = [] := by
    intro hv
    by_cases hl : (b.boot_image_load_header (opened_handle b img_id)).1 = 0
    · have hm : (loaded_header b img_id).ih_magic ≠ b.IMAGE_MAGIC := fun hm => hv ⟨hl, hm⟩
      rw [trace_bad_magic b name img_id img_address slot_size h hl hm]
      exact ⟨by simp [hl], by simp [Event.is_version, Event.is_row, Event.is_read]⟩
    · rw [trace_load_failed b name img_id img_address slot_size h hl]
      exact ⟨by simp [hl], by simp [Event.is_version, Event.is_row, Event.is_read]⟩
  refine ⟨⟨?_, ?_⟩, ⟨_, fun size => rfl⟩, ?_, fun hv => ⟨(hrej hv).1, (hrej hv).2, rfl, rfl⟩⟩
  · rintro ⟨e, he, hver⟩
    by_contra hv
    have hnil := (hrej hv).2
    have hmem : e ∈ (print_image_content b name img_id img_address slot_size).filter
        (fun e => e.is_version || e.is_row || e.is_read) := by
      rw [List.mem_filter]
      exact ⟨he, by simp [hver]⟩
    rw [hnil] at hmem
    simp at hmem
  · rintro ⟨hl, hm⟩
    rw [trace_accepted b name img_id img_address slot_size ⟨h, hl, hm⟩]
    exact ⟨Event.version (loaded_header b img_id).ih_ver.iv_major
      (loaded_header b img_id).ih_ver.iv_minor (loaded_header b img_id).ih_ver.iv_revision
      (loaded_header b img_id).ih_ver.iv_build_num, by simp [summary], rfl⟩
  · rintro ⟨hl, hm⟩
    exact ⟨_, trace_accepted b name img_id img_address slot_size ⟨h, hl, hm⟩⟩

theorem header_validity_witness :
    ((sample_backend (sample_header 32 16)).flash_area_open 0).1 = 0 ∧
    ((∃ e ∈ print_image_content (sample_backend (sample_header 32 16)) ['A'] 0 4096 40,
        e.is_version = true) ↔
      ((sample_backend (sample_header 32 16)).boot_image_load_header
          (opened_handle (sample_backend (sample_header 32 16)) 0)).1 = 0 ∧
        (loaded_header (sample_backend (sample_header 32 16)) 0).ih_magic =
          (sample_backend (sample_header 32 16)).IMAGE_MAGIC) ∧
    ((test_backend 0 3 ⟨4294967295, 65535, 4294967295, ⟨255, 255, 65535, 4294967295⟩⟩
      (fun _ => false)).flash_area_open 0).1 = 0 ∧
    print_image_content
        (test_backend 0 3 ⟨4294967295, 65535, 4294967295, ⟨255, 255, 65535, 4294967295⟩⟩
          (fun _ => false)) ['A'] 0 4096 40 =
      [Event.title ['A'], Event.slot 4096 40, Event.flash_area_open 0,
        Event.boot_image_load_header 7, Event.no_image, Event.flash_area_close 7] ∧
    print_image_content
        (test_backend 0 0 ⟨4294967295, 65535, 4294967295, ⟨255, 255, 65535, 4294967295⟩⟩
          (fun _ => false)) ['A'] 0 4096 40 =
      [Event.title ['A'], Event.slot 4096 40, Event.flash_area_open 0,
        Event.boot_image_load_header 7, Event.invalid_magic 4294967295,
        Event.flash_area_close 7] :=
  ⟨rfl, (header_validity (sample_backend (sample_header 32 16)) ['A'] 0 4096 40 rfl).1,
    rfl,
    ((header_validity
      (test_backend 0 3 ⟨4294967295, 65535, 4294967295, ⟨255, 255, 65535, 4294967295⟩⟩
        (fun _ => false)) ['A'] 0 4096 40 rfl).2.2.2 (by decide)).1,
    ((header_validity
      (test_backend 0 0 ⟨4294967295, 65535, 4294967295, ⟨255, 255, 65535, 4294967295⟩⟩
        (fun _ => false)) ['A'] 0 4096 40 rfl).2.2.2 (by decide)).1⟩

/-- C5, counterexample: partition 0 has 40 bytes, its header declares a
32-byte header and a 16-byte payload, so the payload ends at 48, beyond the
partition; the inspection still prints the version line, reads the payload
and prints a row. -/
theorem oversized_payload_is_dumped :
    40 < (sample_header 32 16).ih_hdr_size + (sample_header 32 16).ih_img_size ∧
    print_image_content (sample_backend (sample_header 32 16)) ['A'] 0 4096 40 =
      [Event.title ['A'], Event.slot 4096 40, Event.flash_area_open 0,
        Event.boot_image_load_header 7, Event.version 1 2 3 4, Event.image_size 16,
        Event.content_heading, Event.flash_area_read 7 32 16,
        Event.row 0 [32, 33, 34, 35, 36, 37, 38, 39, 40, 41, 42, 43, 44, 45, 46, 47] 16,
        Event.flash_area_close 7] := by
  refine ⟨by decide, ?_⟩
  rw [trace_small _ _ _ _ _ (sample_accepted 32 16 0) (sample_reads _ 0) (by decide)]
  rfl

/-- C4: for an accepted header with `image_size > 1024`, if the read of
head chunk `j` fails after the reads of the head chunks before it succeeded,
the inspection prints the rows of the head chunks `0 .. j-1`, then issues
the failing read and prints one error line for it, issues no further head
read and prints no further head row, prints the skipped-middle marker and
goes on to the tail range: its first read is always issued, and when the 32
tail reads succeed all 32 tail rows are printed. -/
theorem head_failure_keeps_tail (b : Backend) (name : List Char)
    (img_id img_address slot_size : Nat) (h : header_accepted b img_id)
    (hfits : (loaded_header b img_id).fits)
    (hbig : 1024 < (loaded_header b img_id).ih_img_size)
    (j : Nat) (hj : j < 32)
    (hbefore : ∀ k, k < j →
      (b.flash_area_read (opened_handle b img_id)
        (chunk_offset (loaded_header b img_id) 0 k) 16).1 = 0)
    (hbad : (b.flash_area_read (opened_handle b img_id)
        (chunk_offset (loaded_header b img_id) 0 j) 16).1 ≠ 0) :
    ∃ tail,
      print_image_content b name img_id img_address slot_size =
        summary name img_id img_address slot_size (opened_handle b img_id)
            (loaded_header b img_id) ++
          (List.range j).flatMap
            (chunk_events b (opened_handle b img_id) (loaded_header b img_id) 0 512) ++
          [Event.flash_area_read (opened_handle b img_id)
              (chunk_offset (loaded_header b img_id) 0 j) 16,
            Event.read_failed (chunk_offset (loaded_header b img_id) 0 j)] ++
          [Event.skipped_middle] ++ tail ++
          [Event.flash_area_close (opened_handle b img_id)] ∧
      chunk_offset (loaded_header b img_id) 0 j =
        (loaded_header b img_id).ih_hdr_size + 16 * j ∧
      tail.head? = some (Event.flash_area_read (opened_handle b img_id)
        (chunk_offset (loaded_header b img_id)
          ((loaded_header b img_id).ih_img_size - 512) 0) 16) ∧
      ((∀ k, k < 32 →
          (b.flash_area_read (opened_handle b img_id)
            (chunk_offset (loaded_header b img_id)
              ((loaded_header b img_id).ih_img_size - 512) k) 16).1 = 0) →
        tail = range_dump b (opened_handle b img_id) (loaded_header b img_id)
            ((loaded_header b img_id).ih_img_size - 512) 512 ∧
          (tail.filter Event.is_row).length = 32) := by
  obtain ⟨_, hhs, himg⟩ := hfits
  refine ⟨dump_chunks b (opened_handle b img_id) (loaded_header b img_id)
    (u32_sub (u32_add (loaded_header b img_id).ih_hdr_size
      (loaded_header b img_id).ih_img_size) 512) 512 0, ?_, ?_, ?_, ?_⟩
  · rw [trace_two_sections b name img_id img_address slot_size h hbig]
    have hhead := dump_chunks_until b (opened_handle b img_id) (loaded_header b img_id)
      (loaded_header b img_id).ih_hdr_size 0 512 j (by omega)
      (fun k _ => head_offset _ k) (fun k hk => head_label _ k (by omega))
      (fun k hk => by rw [chunk_len_full k (by omega)]; exact hbefore k hk)
      (by rw [chunk_len_full j hj]; exact hbad) j 0 (by omega)
    rw [chunk_len_full j hj, ← List.range_eq_range'] at hhead
    have h0 : (16 * 0 : Nat) = 0 := rfl
    rw [h0] at hhead
    rw [hhead]
    simp
  · unfold chunk_offset
    omega
  · rw [dump_chunks_turn _ _ _ _ _ _ (by omega)]
    have ho := tail_offset (loaded_header b img_id) 0 (by omega)
    have h0 : (16 * 0 : Nat) = 0 := rfl
    rw [h0] at ho
    rw [ho]
    rfl
  · intro htail
    have ht := tail_dump b (opened_handle b img_id) (loaded_header b img_id) (by omega) himg
      (fun k hk => by rw [chunk_len_full k (by omega)]; exact htail k (by omega))
    rw [ht]
    refine ⟨rfl, ?_⟩
    rw [range_dump, chunks_filter_rows]
    simp

theorem head_failure_keeps_tail_witness :
    header_accepted faulty_backend 0 ∧
    (loaded_header faulty_backend 0).fits ∧
    1024 < (loaded_header faulty_backend 0).ih_img_size ∧
    3 < 32 ∧
    (∀ k, k < 3 →
      (faulty_backend.flash_area_read 7 (chunk_offset (loaded_header faulty_backend 0) 0 k)
        16).1 = 0) ∧
    (faulty_backend.flash_area_read 7 (chunk_offset (loaded_header faulty_backend 0) 0 3)
      16).1 ≠ 0 ∧
    ∃ tail,
      print_image_content faulty_backend ['A'] 0 4096 8192 =
        summary ['A'] 0 4096 8192 7 (loaded_header faulty_backend 0) ++
          (List.range 3).flatMap
            (chunk_events faulty_backend 7 (loaded_header faulty_backend 0) 0 512) ++
          [Event.flash_area_read 7 80 16, Event.read_failed 80] ++
          [Event.skipped_middle] ++ tail ++ [Event.flash_area_close 7] ∧
      tail.head? = some (Event.flash_area_read 7 1568 16) ∧
      (tail.filter Event.is_row).length = 32 := by
  have hacc : header_accepted faulty_backend 0 := ⟨rfl, rfl, rfl⟩
  have hbefore : ∀ k, k < 3 →
      (faulty_backend.flash_area_read 7 (chunk_offset (loaded_header faulty_backend 0) 0 k)
        16).1 = 0 := by decide
  have hbad : (faulty_backend.flash_area_read 7
      (chunk_offset (loaded_header faulty_backend 0) 0 3) 16).1 ≠ 0 := by decide
  have htail : ∀ k, k < 32 →
      (faulty_backend.flash_area_read 7
        (chunk_offset (loaded_header faulty_backend 0)
          ((loaded_header faulty_backend 0).ih_img_size - 512) k) 16).1 = 0 := by decide
  obtain ⟨tail, h1, _, h3, h4⟩ :=
    head_failure_keeps_tail faulty_backend ['A'] 0 4096 8192 hacc (by decide) (by decide)
      3 (by decide) hbefore hbad
  exact ⟨hacc, by decide, by decide, by decide, hbefore, hbad, tail, h1, h3, (h4 htail).2⟩

/-- C10 (as the code has it): for an accepted header and a backend whose
reads all succeed, the reads and rows of the inspection are, range after
range (the single range `[0, image_size)` of length `L = image_size` when
`image_size ≤ 1024`, else the ranges starting at `0` and `image_size - 512`
of length `L = 512`), for `k = 0 .. ceil(L/16) - 1` in order: one read at
partition offset `(header_size + start + 16 k) mod 2^32` of length
`min 16 (L - 16 k)`, followed by its row labelled `start + 16 k`.  So every
range takes `ceil(L/16)` reads and as many rows; the offset is
`header_size + start + 16 k` itself whenever `header_size + image_size`
fits in 32 bits; a 2048-byte image yields 64 rows. -/
theorem chunk_schedule (b : Backend) (name : List Char)
    (img_id img_address slot_size : Nat) (h : header_accepted b img_id)
    (hfits : (loaded_header b img_id).fits)
    (hreads : reads_succeed b img_id) :
    (print_image_content b name img_id img_address slot_size).filter
        (fun e => e.is_read || e.is_row) =
      (if (loaded_header b img_id).ih_img_size ≤ 1024 then [0]
        else [0, (loaded_header b img_id).ih_img_size - 512]).flatMap (fun start =>
        (List.range (((if (loaded_header b img_id).ih_img_size ≤ 1024
            then (loaded_header b img_id).ih_img_size else 512) + 15) / 16)).flatMap (fun k =>
          [Event.flash_area_read (opened_handle b img_id)
              (((loaded_header b img_id).ih_hdr_size + start + 16 * k) % 4294967296)
              (min 16 ((if (loaded_header b img_id).ih_img_size ≤ 1024
                then (loaded_header b img_id).ih_img_size else 512) - 16 * k)),
            Event.row (start + 16 * k)
              (fill_buffer
                (b.flash_area_read (opened_handle b img_id)
                  (((loaded_header b img_id).ih_hdr_size + start + 16 * k) % 4294967296)
                  (min 16 ((if (loaded_header b img_id).ih_img_size ≤ 1024
                    then (loaded_header b img_id).ih_img_size else 512) - 16 * k))).2
                (min 16 ((if (loaded_header b img_id).ih_img_size ≤ 1024
                  then (loaded_header b img_id).ih_img_size else 512) - 16 * k)))
              (min 16 ((if (loaded_header b img_id).ih_img_size ≤ 1024
                then (loaded_header b img_id).ih_img_size else 512) - 16 * k))])) ∧
    ((print_image_content b name img_id img_address slot_size).filter Event.is_read).length =
      (if (loaded_header b img_id).ih_img_size ≤ 1024 then 1 else 2) *
        (((if (loaded_header b img_id).ih_img_size ≤ 1024
          then (loaded_header b img_id).ih_img_size else 512) + 15) / 16) ∧
    ((print_image_content b name img_id img_address slot_size).filter Event.is_row).length =
      (if (loaded_header b img_id).ih_img_size ≤ 1024 then 1 else 2) *
        (((if (loaded_header b img_id).ih_img_size ≤ 1024
          then (loaded_header b img_id).ih_img_size else 512) + 15) / 16) ∧
    ((loaded_header b img_id).ih_hdr_size + (loaded_header b img_id).ih_img_size
        ≤ 4294967296 →
      ∀ start k, start + 16 * k < (loaded_header b img_id).ih_img_size →
        ((loaded_header b img_id).ih_hdr_size + start + 16 * k) % 4294967296 =
          (loaded_header b img_id).ih_hdr_size + start + 16 * k) ∧
    ((loaded_header b img_id).ih_img_size = 2048 →
      ((print_image_content b name img_id img_address slot_size).filter
        Event.is_row).length = 64) := by
  have hrows : ((print_image_content b name img_id img_address slot_size).filter
      Event.is_row).length =
      (if (loaded_header b img_id).ih_img_size ≤ 1024 then 1 else 2) *
        (((if (loaded_header b img_id).ih_img_size ≤ 1024
          then (loaded_header b img_id).ih_img_size else 512) + 15) / 16) := by
    by_cases hs : (loaded_header b img_id).ih_img_size ≤ 1024
    · rw [trace_small b name img_id img_address slot_size h hreads hs]
      simp only [List.filter_append, List.length_append, summary_filter_rows, range_dump,
        chunks_filter_rows, hs, if_true]
      simp [Event.is_row]
    · rw [trace_big b name img_id img_address slot_size h hfits hreads (by omega)]
      simp only [List.filter_append, List.length_append, summary_filter_rows, range_dump,
        chunks_filter_rows, hs, if_false]
      simp [Event.is_row]
  refine ⟨?_, ?_, hrows, ?_, ?_⟩
  · by_cases hs : (loaded_header b img_id).ih_img_size ≤ 1024
    · rw [trace_small b name img_id img_address slot_size h hreads hs]
      simp only [List.filter_append, summary_filter_steps, range_dump, chunks_filter_steps,
        hs, if_true]
      simp [Event.is_read, Event.is_row, chunk_events_fun]
    · rw [trace_big b name img_id img_address slot_size h hfits hreads (by omega)]
      simp only [List.filter_append, summary_filter_steps, range_dump, chunks_filter_steps,
        hs, if_false]
      simp [Event.is_read, Event.is_row, chunk_events_fun]
  · by_cases hs : (loaded_header b img_id).ih_img_size ≤ 1024
    · rw [trace_small b name img_id img_address slot_size h hreads hs]
      simp only [List.filter_append, List.length_append, range_dump,
        chunks_filter_reads, hs, if_true]
      simp [Event.is_read, summary]
    · rw [trace_big b name img_id img_address slot_size h hfits hreads (by omega)]
      simp only [List.filter_append, List.length_append, range_dump,
        chunks_filter_reads, hs, if_false]
      simp [Event.is_read, summary]
  · intro hno start k hk
    exact Nat.mod_eq_of_lt (by omega)
  · intro h2048
    rw [hrows, h2048]
    rfl

theorem chunk_schedule_witness :
    header_accepted (sample_backend (sample_header 32 2048)) 0 ∧
    (loaded_header (sample_backend (sample_header 32 2048)) 0).fits ∧
    reads_succeed (sample_backend (sample_header 32 2048)) 0 ∧
    ((print_image_content (sample_backend (sample_header 32 2048)) ['A'] 0 4096 8192).filter
      Event.is_row).length = 64 ∧
    ((print_image_content (sample_backend (sample_header 32 2048)) ['A'] 0 4096 8192).filter
      Event.is_read).length = 64 :=
  ⟨sample_accepted 32 2048 0, by decide, sample_reads _ 0,
    (chunk_schedule (sample_backend (sample_header 32 2048)) ['A'] 0 4096 8192
      (sample_accepted 32 2048 0) (by decide) (sample_reads _ 0)).2.2.2.2 rfl,
    (chunk_schedule (sample_backend (sample_header 32 2048)) ['A'] 0 4096 8192
      (sample_accepted 32 2048 0) (by decide) (sample_reads _ 0)).2.1⟩

/-- C10, counterexample: with a 1024-byte header and a payload of
4294967295 bytes the tail range starts at payload offset 4294966783; its
read `k = 0`, the 33rd read of the inspection, is issued at partition offset
511, not at `header_size + start + 16 k = 4294967807`. -/
theorem tail_offset_wraps :
    (sample_header 1024 4294967295).fits ∧
    ((print_image_content (sample_backend (sample_header 1024 4294967295)) ['A'] 0 4096
      8192).filter Event.is_read)[32]? = some (Event.flash_area_read 7 511 16) ∧
    (sample_header 1024 4294967295).ih_hdr_size +
      ((sample_header 1024 4294967295).ih_img_size - 512) + 16 * 0 = 4294967807 := by
  refine ⟨by decide, ?_, by decide⟩
  rw [trace_big _ _ _ _ _ (sample_accepted 1024 4294967295 0) (by decide) (sample_reads _ 0)
    (by decide)]
  rfl

set_option maxRecDepth 100000 in
theorem fmt_x_byte : ∀ x, x < 256 →
    fmt_x 2 x = [Nat.digitChar (x / 16), Nat.digitChar (x % 16)] := by
  decide

theorem hex_value_digit : ∀ d, d < 16 →
    hex_value (Nat.digitChar d) = some d ∧ Nat.digitChar d ≠ ' ' := by
  decide

theorem ascii_char_code : ∀ c, c < 127 → (Char.ofNat c).toNat = c := by
  decide

theorem range_map_getD (buf : List Nat) (cs : Nat) (h : cs ≤ buf.length) :
    (List.range cs).map (fun i => buf.getD i 0) = buf.take cs := by
  apply List.ext_getElem?
  intro i
  by_cases hi : i < cs
  · have hb : i < buf.length := by omega
    simp [hi, hb, List.getElem?_take]
  · simp [hi, List.getElem?_take]
    omega

theorem hex_bytes_take (buf : List Nat) (cs : Nat) (h : cs ≤ buf.length) :
    hex_bytes buf cs = (buf.take cs).flatMap (fun x => fmt_x 2 x ++ [' ']) := by
  rw [← range_map_getD buf cs h]
  simp [hex_bytes, List.flatMap, List.map_map, Function.comp_def]

theorem ascii_bytes_take (buf : List Nat) (cs : Nat) (h : cs ≤ buf.length) :
    ascii_bytes buf cs = (buf.take cs).map ascii_char := by
  rw [← range_map_getD buf cs h]
  simp [ascii_bytes, List.map_map, Function.comp_def]

theorem parse_blank (rest : List Char) :
    parse_hex_column (' ' :: rest) = parse_hex_column rest := by
  rcases rest with _ | ⟨d, _ | ⟨e, rest2⟩⟩ <;> simp [parse_hex_column]

theorem parse_value (c d : Char) (rest : List Char) (x y : Nat) (r : List Nat)
    (hc : c ≠ ' ') (hx : hex_value c = some x) (hy : hex_value d = some y)
    (hr : parse_hex_column rest = some r) :
    parse_hex_column (c :: d :: ' ' :: rest) = some ((16 * x + y) :: r) := by
  rw [parse_hex_column]
  simp [hc, hx, hy, hr]

theorem parse_blanks (l : List Nat) :
    parse_hex_column (l.flatMap (fun _ => [' ', ' ', ' '])) = some [] := by
  induction l with
  | nil => rfl
  | cons a l ih =>
    rw [List.flatMap_cons]
    simp only [List.cons_append, List.nil_append, parse_blank]
    exact ih

theorem parse_bytes (chunk : List Nat) (hb : ∀ x ∈ chunk, x < 256) (pad : List Char)
    (hpad : parse_hex_column pad = some []) :
    parse_hex_column (chunk.flatMap (fun x => fmt_x 2 x ++ [' ']) ++ pad) = some chunk := by
  induction chunk with
  | nil => simpa using hpad
  | cons x xs ih =>
    have hx : x < 256 := hb x (List.mem_cons_self _ _)
    have ih2 := ih (fun y hy => hb y (List.mem_cons_of_mem _ hy))
    have h1 := hex_value_digit (x / 16) (by omega)
    have h2 := hex_value_digit (x % 16) (by omega)
    rw [List.flatMap_cons, fmt_x_byte x hx]
    have hv : 16 * (x / 16) + x % 16 = x := by omega
    simp only [List.cons_append, List.nil_append, List.append_assoc]
    rw [parse_value _ _ _ _ _ _ h1.2 h1.1 h2.1 ih2, hv]

theorem hex_bytes_length (chunk : List Nat) (hb : ∀ x ∈ chunk, x < 256) :
    (chunk.flatMap (fun x => fmt_x 2 x ++ [' '])).length = 3 * chunk.length := by
  induction chunk with
  | nil => rfl
  | cons x xs ih =>
    have hx : x < 256 := hb x (List.mem_cons_self _ _)
    rw [List.flatMap_cons, List.length_append, ih (fun y hy => hb y (List.mem_cons_of_mem _ hy)),
      fmt_x_byte x hx]
    simp
    omega

theorem blanks_length (l : List Nat) :
    (l.flatMap (fun _ => [' ', ' ', ' '])).length = 3 * l.length := by
  induction l with
  | nil => rfl
  | cons a l ih =>
    rw [List.flatMap_cons, List.length_append, ih]
    simp
    omega

theorem fmt_x_length (label : Nat) (h : label < 16777216) : (fmt_x 6 label).length = 6 := by
  have hl : (Nat.toDigits 16 label).length ≤ 6 :=
    Nat.toDigitsCore_length 16 (by decide) (label + 1) label 6 (by simpa using h) (by decide)
  simp [fmt_x]
  omega

/-- The ASCII column of a row of at most 16 bytes whose label has at most
six hexadecimal digits starts at index 58 of its line. -/
theorem row_lead_length (label : Nat) (buf : List Nat) (cs : Nat)
    (hlabel : label < 16777216) (hcs : cs ≤ 16) (hlen : cs ≤ buf.length)
    (hb : ∀ x ∈ buf, x < 256) :
    (row_lead label buf cs).length = 58 ∧ (hex_bytes buf cs).length = 3 * cs ∧
      (hex_padding cs).length = 3 * (16 - cs) := by
  have h1 : (hex_bytes buf cs).length = 3 * cs := by
    rw [hex_bytes_take buf cs hlen,
      hex_bytes_length _ (fun x hx => hb x (List.mem_of_mem_take hx))]
    simp
    omega
  have h2 : (hex_padding cs).length = 3 * (16 - cs) := by
    rw [hex_padding, blanks_length]
    simp
  refine ⟨?_, h1, h2⟩
  simp only [row_lead, List.length_append, fmt_x_length label hlabel, h1, h2, List.length_cons,
    List.length_nil]
  omega

/-- Whatever the backend does, every row of an inspection shows between 1
and 16 bytes of a 16-byte buffer, and its label has at most six hexadecimal
digits when the payload is shorter than `2^24 + 16` bytes. -/
theorem trace_row_bounds (b : Backend) (name : List Char)
    (img_id img_address slot_size : Nat) (hfits : (loaded_header b img_id).fits)
    (hsz : (loaded_header b img_id).ih_img_size < 16777232)
    (label : Nat) (buf : List Nat) (cs : Nat)
    (hrow : Event.row label buf cs ∈ print_image_content b name img_id img_address slot_size) :
    label < 16777216 ∧ 1 ≤ cs ∧ cs ≤ 16 ∧ buf.length = 16 ∧ ∀ x ∈ buf, x < 256 := by
  obtain ⟨_, hhs, himg⟩ := hfits
  by_cases h : (b.flash_area_open img_id).1 = 0
  · by_cases hl : (b.boot_image_load_header (opened_handle b img_id)).1 = 0
    · by_cases hm : (loaded_header b img_id).ih_magic = b.IMAGE_MAGIC
      · rw [trace_accepted b name img_id img_address slot_size ⟨h, hl, hm⟩] at hrow
        rcases List.mem_append.mp hrow with hrow | hrow
        · rcases List.mem_append.mp hrow with hrow | hrow
          · simp [summary] at hrow
          · obtain ⟨s, hs, hrow⟩ := List.mem_flatMap.mp hrow
            rw [List.mem_range] at hs
            unfold dump_section at hrow
            rcases List.mem_append.mp hrow with hrow | hrow
            · split at hrow <;> simp at hrow
            · rcases dump_chunks_events b _ _ _ _ _ 0 (Nat.le_refl _) _ hrow with h1 | h1 | h1
              · obtain ⟨_, _, h1⟩ := h1
                simp at h1
              · obtain ⟨_, h1⟩ := h1
                simp at h1
              · obtain ⟨p, buf2, cs2, _, hp, hmul, hc1, hc2, hlen, hbytes, h1⟩ := h1
                have hmul2 := hmul rfl
                simp only [Event.row.injEq] at h1
                obtain ⟨e1, e2, e3⟩ := h1
                subst e2 e3
                refine ⟨?_, hc1, hc2, hlen, hbytes⟩
                rw [e1]
                by_cases hsmall : (loaded_header b img_id).ih_img_size ≤ 1024
                · simp only [hsmall, if_true] at hs hp ⊢
                  have hs0 : s ≠ 1 := by omega
                  simp only [hs0, if_false]
                  unfold u32_add u32_sub
                  omega
                · simp only [hsmall, if_false] at hs hp ⊢
                  by_cases hs1 : s = 1
                  · simp only [hs1, if_true]
                    unfold u32_add u32_sub
                    omega
                  · simp only [hs1, if_false]
                    unfold u32_add u32_sub
                    omega
        · simp at hrow
      · rw [trace_bad_magic b name img_id img_address slot_size h hl hm] at hrow
        simp at hrow
    · rw [trace_load_failed b name img_id img_address slot_size h hl] at hrow
      simp at hrow
  · rw [trace_open_failed b name img_id img_address slot_size h] at hrow
    simp at hrow

theorem fill_buffer_length (data : List Nat) (len : Nat) : (fill_buffer data len).length = 16 := by
  simp [fill_buffer]

theorem fill_buffer_bytes (data : List Nat) (len : Nat) : ∀ x ∈ fill_buffer data len, x < 256 := by
  intro x hx
  simp only [fill_buffer, List.mem_map, List.mem_range] at hx
  obtain ⟨i, _, hi⟩ := hx
  subst hi
  split
  · exact Nat.mod_lt _ (by decide)
  · decide

theorem fill_buffer_take (chunk : List Nat) (h16 : chunk.length ≤ 16)
    (hb : ∀ x ∈ chunk, x < 256) :
    (fill_buffer chunk chunk.length).take chunk.length = chunk := by
  apply List.ext_getElem?
  intro i
  by_cases hi : i < chunk.length
  · have h2 : i < 16 := by omega
    have hx : chunk[i] < 256 := hb _ (List.getElem_mem hi)
    simp [fill_buffer, List.getElem?_take, hi, h2, List.getD_eq_getElem?_getD,
      Nat.mod_eq_of_lt hx]
  · have h3 : chunk[i]? = none := List.getElem?_eq_none (by omega)
    simp [List.getElem?_take, hi, h3]

/-- C7: the row rendered for a chunk of at most 16 bytes (so for every
chunk of 1 to 16 bytes) is the label, the hex column, the delimiter ` |`,
the ASCII column and `|` with a newline; reading the hex column back yields
exactly the bytes of the chunk; the ASCII column has one character per byte,
the character with the code of the byte when the byte is in 32..126 and `.`
otherwise. -/
theorem row_round_trip (label : Nat) (chunk : List Nat) (h16 : chunk.length ≤ 16)
    (hb : ∀ x ∈ chunk, x < 256) :
    Event.text (Event.row label (fill_buffer chunk chunk.length) chunk.length) =
      fmt_x 6 label ++ [':', ' '] ++
        (hex_bytes (fill_buffer chunk chunk.length) chunk.length ++ hex_padding chunk.length) ++
        [' ', '|'] ++ ascii_bytes (fill_buffer chunk chunk.length) chunk.length ++ ['|', '\n'] ∧
    parse_hex_column
        (hex_bytes (fill_buffer chunk chunk.length) chunk.length ++ hex_padding chunk.length) =
      some chunk ∧
    (ascii_bytes (fill_buffer chunk chunk.length) chunk.length).length = chunk.length ∧
    ∀ i, i < chunk.length →
      (32 ≤ chunk.getD i 0 ∧ chunk.getD i 0 ≤ 126 →
        ((ascii_bytes (fill_buffer chunk chunk.length) chunk.length).getD i ' ').toNat =
          chunk.getD i 0) ∧
      (¬ (32 ≤ chunk.getD i 0 ∧ chunk.getD i 0 ≤ 126) →
        (ascii_bytes (fill_buffer chunk chunk.length) chunk.length).getD i ' ' = '.') := by
  have hlen : chunk.length ≤ (fill_buffer chunk chunk.length).length := by
    rw [fill_buffer_length]; exact h16
  have hasc : ascii_bytes (fill_buffer chunk chunk.length) chunk.length =
      chunk.map ascii_char := by
    rw [ascii_bytes_take _ _ hlen, fill_buffer_take chunk h16 hb]
  refine ⟨by simp [Event.text, row_text, row_lead], ?_, by simp [hasc], ?_⟩
  · rw [hex_bytes_take _ _ hlen, fill_buffer_take chunk h16 hb]
    exact parse_bytes chunk hb _ (by rw [hex_padding]; exact parse_blanks _)
  · intro i hi
    have hget : (chunk.map ascii_char).getD i ' ' = ascii_char (chunk.getD i 0) := by
      simp [List.getD_eq_getElem?_getD, hi]
    rw [hasc, hget]
    constructor
    · intro hr
      simp only [ascii_char, hr, and_self, if_true]
      exact ascii_char_code _ (by omega)
    · intro hr
      simp only [ascii_char, hr, if_false]

theorem row_round_trip_witness :
    [72, 105, 0, 255, 126, 127, 31, 32].length ≤ 16 ∧
    (∀ x ∈ [72, 105, 0, 255, 126, 127, 31, 32], x < 256) ∧
    parse_hex_column
        (hex_bytes (fill_buffer [72, 105, 0, 255, 126, 127, 31, 32] 8) 8 ++ hex_padding 8) =
      some [72, 105, 0, 255, 126, 127, 31, 32] ∧
    (ascii_bytes (fill_buffer [72, 105, 0, 255, 126, 127, 31, 32] 8) 8).length = 8 :=
  ⟨by decide, by decide,
    (row_round_trip 32 [72, 105, 0, 255, 126, 127, 31, 32] (by decide) (by decide)).2.1,
    (row_round_trip 32 [72, 105, 0, 255, 126, 127, 31, 32] (by decide) (by decide)).2.2.1⟩

/-- C8 (as the code has it): for every payload shorter than `2^24 + 16`
bytes, whatever the payload holds and whatever the backend does, the ASCII
column of every row of the inspection, full or short, starts at index 58 of
its line: the hex column of a chunk of `n` bytes takes `3 n` characters and
is padded with one three-blank placeholder per missing byte. -/
theorem ascii_column_aligned (b : Backend) (name : List Char)
    (img_id img_address slot_size : Nat) (hfits : (loaded_header b img_id).fits)
    (hsz : (loaded_header b img_id).ih_img_size < 16777232)
    (label : Nat) (buf : List Nat) (cs : Nat)
    (hrow : Event.row label buf cs ∈ print_image_content b name img_id img_address slot_size) :
    Event.text (Event.row label buf cs) =
      row_lead label buf cs ++ (ascii_bytes buf cs ++ ['|', '\n']) ∧
    (row_lead label buf cs).length = 58 ∧
    (hex_bytes buf cs).length = 3 * cs ∧
    (hex_padding cs).length = 3 * (16 - cs) := by
  obtain ⟨hlabel, _, hcs, hlen, hbytes⟩ :=
    trace_row_bounds b name img_id img_address slot_size hfits hsz label buf cs hrow
  exact ⟨by simp [Event.text, row_text],
    row_lead_length label buf cs hlabel hcs (by omega) hbytes⟩

theorem ascii_column_aligned_witness :
    (loaded_header (sample_backend (sample_header 32 40)) 0).fits ∧
    (loaded_header (sample_backend (sample_header 32 40)) 0).ih_img_size < 16777232 ∧
    Event.row 32 [64, 65, 66, 67, 68, 69, 70, 71, 0, 0, 0, 0, 0, 0, 0, 0] 8 ∈
      print_image_content (sample_backend (sample_header 32 40)) ['A'] 0 4096 8192 ∧
    (row_lead 32 [64, 65, 66, 67, 68, 69, 70, 71, 0, 0, 0, 0, 0, 0, 0, 0] 8).length = 58 := by
  have hrow : Event.row 32 [64, 65, 66, 67, 68, 69, 70, 71, 0, 0, 0, 0, 0, 0, 0, 0] 8 ∈
      print_image_content (sample_backend (sample_header 32 40)) ['A'] 0 4096 8192 := by
    rw [trace_small _ _ _ _ _ (sample_accepted 32 40 0) (sample_reads _ 0) (by decide)]
    decide
  exact ⟨by decide, by decide, hrow,
    (ascii_column_aligned (sample_backend (sample_header 32 40)) ['A'] 0 4096 8192
      (by decide) (by decide) _ _ _ hrow).2.1⟩

/-- C8, counterexample: in the dump of a payload of 16777728 bytes the first
head row is labelled `000000` and the first tail row `1000000`; the ASCII
column of the first starts at index 58 of its line, that of the second at
index 59. -/
theorem wide_label_shifts_ascii_column :
    Event.row 0 [32, 33, 34, 35, 36, 37, 38, 39, 40, 41, 42, 43, 44, 45, 46, 47] 16 ∈
      print_image_content (sample_backend (sample_header 32 16777728)) ['A'] 0 4096 8192 ∧
    Event.row 16777216 [32, 33, 34, 35, 36, 37, 38, 39, 40, 41, 42, 43, 44, 45, 46, 47] 16 ∈
      print_image_content (sample_backend (sample_header 32 16777728)) ['A'] 0 4096 8192 ∧
    (row_lead 0 [32, 33, 34, 35, 36, 37, 38, 39, 40, 41, 42, 43, 44, 45, 46, 47] 16).length
      = 58 ∧
    (row_lead 16777216 [32, 33, 34, 35, 36, 37, 38, 39, 40, 41, 42, 43, 44, 45, 46, 47]
      16).length = 59 ∧
    fmt_x 6 0 = ['0', '0', '0', '0', '0', '0'] ∧
    fmt_x 6 16777216 = ['1', '0', '0', '0', '0', '0', '0'] := by
  rw [trace_big _ _ _ _ _ (sample_accepted 32 16777728 0) (by decide) (sample_reads _ 0)
    (by decide)]
  refine ⟨by decide, by decide, by decide, by decide, by decide, by decide⟩

/-! ## Every request is issued once -/

/-- The reads of the loop, whatever their results, are an initial part of
the reads of the full range. -/
theorem dump_chunks_reads (b : Backend) (fa : Nat) (hdr : image_header) (so len : Nat) :
    ∀ n i, i + n = (len + 15) / 16 →
      List.Sublist ((dump_chunks b fa hdr so len (16 * i)).filter Event.is_read)
        ((List.range' i n).map (fun k =>
          Event.flash_area_read fa (u32_add so (16 * k)) (min 16 (len - 16 * k)))) := by
  intro n
  induction n with
  | zero =>
    intro i hi
    rw [dump_chunks_done b fa hdr so len (16 * i) (by omega)]
    simp
  | succ n ih =>
    intro i hi
    have hlt : 16 * i < len := by omega
    rw [dump_chunks_turn b fa hdr so len (16 * i) hlt, List.range'_succ, List.map_cons,
      List.filter_cons_of_pos (by rfl)]
    apply List.Sublist.cons₂
    split
    · simp [Event.is_read]
    · rw [List.filter_cons_of_neg (by simp [Event.is_read])]
      by_cases hs : len - 16 * i < 16
      · rw [dump_chunks_done b fa hdr so len _ (by omega)]
        simp
      · have hm : min 16 (len - 16 * i) = 16 := by omega
        have e16 : 16 * i + 16 = 16 * (i + 1) := by omega
        rw [hm, e16]
        exact ih (i + 1) (by omega)

theorem range_reads_nodup (fa so len : Nat) (hlen : len ≤ 1024) :
    ((List.range' 0 ((len + 15) / 16)).map (fun k =>
      Event.flash_area_read fa (u32_add so (16 * k)) (min 16 (len - 16 * k)))).Nodup := by
  apply List.Nodup.map_on _ (List.nodup_range' 0 _)
  intro x hx y hy hxy
  simp only [List.mem_range'_1] at hx hy
  simp only [Event.flash_area_read.injEq, true_and] at hxy
  have h1 := hxy.1
  unfold u32_add at h1
  omega

/-- Whatever the backend does, no read request is issued twice during one
inspection. -/
theorem reads_requested_once (b : Backend) (name : List Char)
    (img_id img_address slot_size : Nat) (hfits : (loaded_header b img_id).fits) :
    ((print_image_content b name img_id img_address slot_size).filter Event.is_read).Nodup := by
  obtain ⟨_, hhs, himg⟩ := hfits
  by_cases h : (b.flash_area_open img_id).1 = 0
  · by_cases hl : (b.boot_image_load_header (opened_handle b img_id)).1 = 0
    · by_cases hm : (loaded_header b img_id).ih_magic = b.IMAGE_MAGIC
      · by_cases hsmall : (loaded_header b img_id).ih_img_size ≤ 1024
        · rw [trace_one_section b name img_id img_address slot_size ⟨h, hl, hm⟩ hsmall]
          have hsub := dump_chunks_reads b (opened_handle b img_id) (loaded_header b img_id)
            (loaded_header b img_id).ih_hdr_size (loaded_header b img_id).ih_img_size _ 0
            (Nat.zero_add _)
          have hnd := (range_reads_nodup (opened_handle b img_id)
            (loaded_header b img_id).ih_hdr_size _ hsmall).sublist hsub
          simpa [List.filter_append, summary, Event.is_read] using hnd
        · rw [trace_two_sections b name img_id img_address slot_size ⟨h, hl, hm⟩ (by omega)]
          have hsub1 := dump_chunks_reads b (opened_handle b img_id) (loaded_header b img_id)
            (loaded_header b img_id).ih_hdr_size 512 _ 0 (Nat.zero_add _)
          have hsub2 := dump_chunks_reads b (opened_handle b img_id) (loaded_header b img_id)
            (u32_sub (u32_add (loaded_header b img_id).ih_hdr_size
              (loaded_header b img_id).ih_img_size) 512) 512 _ 0 (Nat.zero_add _)
          have hnd1 := (range_reads_nodup (opened_handle b img_id)
            (loaded_header b img_id).ih_hdr_size 512 (by omega)).sublist hsub1
          have hnd2 := (range_reads_nodup (opened_handle b img_id)
            (u32_sub (u32_add (loaded_header b img_id).ih_hdr_size
              (loaded_header b img_id).ih_img_size) 512) 512 (by omega)).sublist hsub2
          have h0 : (16 * 0 : Nat) = 0 := rfl
          rw [h0] at hsub1 hsub2 hnd1 hnd2
          have hdis : ∀ e,
              e ∈ (dump_chunks b (opened_handle b img_id) (loaded_header b img_id)
                (loaded_header b img_id).ih_hdr_size 512 0).filter Event.is_read →
              e ∈ (dump_chunks b (opened_handle b img_id) (loaded_header b img_id)
                (u32_sub (u32_add (loaded_header b img_id).ih_hdr_size
                  (loaded_header b img_id).ih_img_size) 512) 512 0).filter Event.is_read →
              False := by
            intro e he1 he2
            have m1 := hsub1.subset he1
            have m2 := hsub2.subset he2
            simp only [List.mem_map, List.mem_range'_1] at m1 m2
            obtain ⟨k1, hk1, e1⟩ := m1
            obtain ⟨k2, hk2, e2⟩ := m2
            rw [← e2] at e1
            simp only [Event.flash_area_read.injEq, true_and] at e1
            have h1 := e1.1
            unfold u32_add u32_sub at h1
            omega
          have hall : (List.filter Event.is_read
              (summary name img_id img_address slot_size (opened_handle b img_id)
                  (loaded_header b img_id) ++
                dump_chunks b (opened_handle b img_id) (loaded_header b img_id)
                  (loaded_header b img_id).ih_hdr_size 512 0 ++
                [Event.skipped_middle] ++
                dump_chunks b (opened_handle b img_id) (loaded_header b img_id)
                  (u32_sub (u32_add (loaded_header b img_id).ih_hdr_size
                    (loaded_header b img_id).ih_img_size) 512) 512 0 ++
                [Event.flash_area_close (opened_handle b img_id)])) =
              (dump_chunks b (opened_handle b img_id) (loaded_header b img_id)
                (loaded_header b img_id).ih_hdr_size 512 0).filter Event.is_read ++
              (dump_chunks b (opened_handle b img_id) (loaded_header b img_id)
                (u32_sub (u32_add (loaded_header b img_id).ih_hdr_size
                  (loaded_header b img_id).ih_img_size) 512) 512 0).filter Event.is_read := by
            simp [List.filter_append, summary, Event.is_read]
          rw [hall]
          exact List.nodup_append.mpr ⟨hnd1, hnd2, fun e he1 he2 => hdis e he1 he2⟩
      · rw [trace_bad_magic b name img_id img_address slot_size h hl hm]
        simp [Event.is_read]
    · rw [trace_load_failed b name img_id img_address slot_size h hl]
      simp [Event.is_read]
  · rw [trace_open_failed b name img_id img_address slot_size h]
    simp [Event.is_read]

end ImageInspector
